import Mathlib

/-!
Verification of the fantasy-name-generator engine
(`fantasynamegen/patterns.py`, `fantasynamegen/generator.py`,
`fantasynamegen/data/blacklisted_combos.py`).

The Python code is shallowly embedded: Python floats become `ℚ`, Python
strings become `String` / `List Char`, Python dicts become association
lists (preserving insertion order), and every random draw becomes an
explicit oracle parameter.  The repository ships no
`data/pair_penalties.csv`, so `load_pair_penalties` caches the empty
table at runtime; the letter-pair lookup is therefore a parameter
(`pairPenalty`), instantiated with the constantly-zero function for
concrete scenarios.
-/

namespace FantasyNameGen

/-- Python `is_vowel` from patterns.py: membership of the lowercased
character in `"aeiou"`. -/
def is_vowel (c : Char) : Bool := "aeiou".toList.contains c.toLower

/-- Lowercase every character (Python `str.lower()` on these ASCII names). -/
def toLowerList (l : List Char) : List Char := l.map Char.toLower

/-- Python negative-index slice `l[-n:]`: the last `n` elements (the whole
list when it is shorter than `n`). -/
def takeLast (n : Nat) (l : List α) : List α := l.drop (l.length - n)

/-- Python `in` on strings: `pat` occurs contiguously inside `l`. -/
def isInfixOfB (pat l : List Char) : Bool :=
  (List.range (l.length + 1)).any (fun i => pat.isPrefixOf (l.drop i))

/-- Python `str.startswith`. -/
def startsWithB (s pre : String) : Bool := pre.data.isPrefixOf s.data

/-- Python `get_vowel_consonant_pattern`: lowercase the text, then map every
vowel to `V` and every other character to `C`. -/
def get_vowel_consonant_pattern (l : List Char) : List Char :=
  (toLowerList l).map (fun c => if is_vowel c then 'V' else 'C')

/-- `ScoringConfig` from patterns.py with its `__init__` defaults. -/
structure ScoringConfig where
  weight_vibe : ℚ := 0.5
  weight_compatibility : ℚ := 0.5
  top_n_candidates : Nat := 40
  low_score_threshold : ℚ := 50
  penalty_repetition_direct_block : ℚ := 75
  penalty_repetition_sequence : ℚ := 65
  penalty_repetition_syllable : ℚ := 80
  penalty_repetition_vowel_across_boundary : ℚ := 20
  penalty_repetition_triple_letter : ℚ := 85
  penalty_repetition_syllable_common_multiplier : ℚ := 0.2
  penalty_boundary_consonants_3 : ℚ := 50
  penalty_boundary_consonants_4plus : ℚ := 80
  penalty_boundary_vowels_3plus : ℚ := 50
  penalty_boundary_hard_stop_join : ℚ := 20
  penalty_boundary_awkward_vowel_join : ℚ := 50
  penalty_boundary_cluster_hard_stop : ℚ := 50
  bonus_smooth_transition : ℚ := 15
  penalty_letter_pairs_factor : ℚ := 40

/-- `ScoringConfig()` with all defaults. -/
def defaultScoringConfig : ScoringConfig := {}

/-- Python `calculate_letter_pair_penalties`: sum the table entry of every
consecutive lowercased 2-character window of the combined text (a missing
entry counts 0, which the lookup function models directly). -/
def calculate_letter_pair_penalties (pairPenalty : String → ℚ) (combined : List Char) : ℚ :=
  if combined.length < 2 then 0
  else
    (((toLowerList combined).zip (toLowerList combined).tail).map
      (fun p => pairPenalty (String.mk [p.1, p.2]))).sum

/-- The empty pair-penalty table: the repository contains no
`data/pair_penalties.csv`, so `load_pair_penalties` caches `{}`. -/
def zeroPairPenalties : String → ℚ := fun _ => 0

/-- Rule 1a of `score_compatibility`: `last_block.lower() == next_block.lower()`. -/
def direct_repeat_cond (lastB nextB : List Char) : Bool :=
  toLowerList lastB == toLowerList nextB

/-- Rule 1b: A-B-A-B sequence repetition over the last two context blocks. -/
def sequence_repeat_cond (blocks_used : List String) (lastB nextB : List Char) : Bool :=
  2 ≤ blocks_used.length &&
  toLowerList ((takeLast 2 blocks_used).headD "").data == toLowerList lastB &&
  toLowerList (blocks_used.getLastD "").data == toLowerList nextB

/-- `boundary_4char` vowel/consonant pattern: last 2 chars of the previous
block + first 2 of the next, lowercased, mapped to V/C. -/
def boundary_pattern (lastB nextB : List Char) : List Char :=
  get_vowel_consonant_pattern (toLowerList (takeLast 2 lastB ++ nextB.take 2))

/-- `'VVV' in boundary_pattern`. -/
def vvv_cond (lastB nextB : List Char) : Bool :=
  isInfixOfB ['V','V','V'] (boundary_pattern lastB nextB)

/-- `'CCCC' in boundary_pattern`. -/
def cccc_cond (lastB nextB : List Char) : Bool :=
  isInfixOfB ['C','C','C','C'] (boundary_pattern lastB nextB)

/-- `'CCC' in boundary_pattern`. -/
def ccc_cond (lastB nextB : List Char) : Bool :=
  isInfixOfB ['C','C','C'] (boundary_pattern lastB nextB)

/-- Triple-letter formation at the boundary: equal join characters plus an
existing double letter on either side. -/
def triple_letter_cond (lastB nextB : List Char) : Bool :=
  (lastB.getLastD ' ').toLower == (nextB.headD ' ').toLower &&
  ((2 ≤ lastB.length &&
      ((takeLast 2 lastB).headD ' ').toLower == (lastB.getLastD ' ').toLower) ||
   (2 ≤ nextB.length &&
      (nextB.headD ' ').toLower == (nextB.getD 1 ' ').toLower))

/-- Syllable/ending repetition: the first window length `i ∈ [1,3]` whose
trailing characters of the previous block equal the leading characters of
the next (case-insensitive); the Python loop breaks at the first match. -/
def syllable_match (lastB nextB : List Char) : Option Nat :=
  (List.range' 1 (min (min lastB.length nextB.length) 3)).find? (fun i =>
    toLowerList (takeLast i lastB) == toLowerList (nextB.take i))

/-- Last vowel of the previous block equals the first vowel of the next. -/
def vowel_across_cond (lastB nextB : List Char) : Bool :=
  let lv := (toLowerList lastB).filter is_vowel
  let fv := (toLowerList nextB).filter is_vowel
  !lv.isEmpty && !fv.isEmpty && (lv.getLastD ' ' == fv.headD ' ')

/-- `hard_stops = "kptgbd"`. -/
def hard_stops : List Char := "kptgbd".toList

/-- `liquids_nasals = "lrmn"`. -/
def liquids_nasals : List Char := "lrmn".toList

/-- `awkward_vowel_pairs_strict` from the source. -/
def awkward_vowel_pairs_strict : List String :=
  ["aa", "ii", "uu", "ao", "iu", "oe", "oi", "ua", "ue", "ui", "uo"]

/-- Awkward vowel join: both join characters are vowels and the pair is in
the strict set. -/
def awkward_vowel_cond (lastB nextB : List Char) : Bool :=
  is_vowel ((lastB.getLastD ' ').toLower) && is_vowel ((nextB.headD ' ').toLower) &&
  awkward_vowel_pairs_strict.contains
    (String.mk [(lastB.getLastD ' ').toLower, (nextB.headD ' ').toLower])

/-- Harsh consonant join: both join characters consonants, previous in the
hard-stop set, next in hard stops plus `"fs"`. -/
def hard_stop_join_cond (lastB nextB : List Char) : Bool :=
  !is_vowel ((lastB.getLastD ' ').toLower) && !is_vowel ((nextB.headD ' ').toLower) &&
  hard_stops.contains ((lastB.getLastD ' ').toLower) &&
  "kptgbdfs".toList.contains ((nextB.headD ' ').toLower)

/-- Consonant cluster ending followed by a hard stop that is not forgiving. -/
def cluster_hard_stop_cond (lastB nextB : List Char) : Bool :=
  2 ≤ lastB.length && !is_vowel (lastB.getLastD ' ') &&
  !is_vowel ((takeLast 2 lastB).headD ' ') &&
  hard_stops.contains ((nextB.headD ' ').toLower) &&
  !("lrmns".toList.contains ((lastB.getLastD ' ').toLower))

/-- Smooth transition: liquid/nasal consonant followed by a vowel. -/
def smooth_transition_cond (lastB nextB : List Char) : Bool :=
  liquids_nasals.contains ((lastB.getLastD ' ').toLower) && is_vowel (nextB.headD ' ')

/-- The amount a single `score -= penalty if cond` step of the source
removes from the running score. -/
def penaltyTerm (c : Bool) (p : ℚ) : ℚ := if c then p else 0

/-- The amount an `if c1: score -= p1 elif c2: score -= p2` step removes. -/
def penaltyTerm2 (c1 : Bool) (p1 : ℚ) (c2 : Bool) (p2 : ℚ) : ℚ :=
  if c1 then p1 else if c2 then p2 else 0

/-- The amount the syllable-repetition loop removes: penalty times the
common-letter multiplier when the first matching window has length 1 and
the join letter is forgiving. -/
def syllablePenaltyTerm (guard : Bool) (m : Option Nat) (commonCond : Bool)
    (p mult1 : ℚ) : ℚ :=
  if guard then
    match m with
    | some i => p * (if i == 1 && commonCond then mult1 else 1)
    | none => 0
  else 0

/-- The amount the letter-pair CSV step removes
(`if config.penalty_letter_pairs_factor > 0`). -/
def letterPairTerm (pairPenalty : String → ℚ) (combined : List Char) (factor : ℚ) : ℚ :=
  if 0 < factor then calculate_letter_pair_penalties pairPenalty combined * factor else 0

/-- `score_compatibility` from patterns.py.  Starts at 100; each `score -=`
of the source appears as one penalty term below (0 when its condition does
not fire), the smooth-transition `score +=` as a bonus term, and the final
`max(0.0, score)` closes the computation.  The detailed boundary checks of
the source are guarded by `len(last_block) >= 1 and len(next_block) >= 1`
(spelled `!isEmpty` below). -/
def score_compatibility (pairPenalty : String → ℚ) (last_block next_block : String)
    (blocks_used : List String) (config : ScoringConfig) : ℚ :=
  if next_block.data.isEmpty then 0
  else if last_block.data.isEmpty then 100
  else
    max 0
      (100
        - penaltyTerm2 (direct_repeat_cond last_block.data next_block.data)
            config.penalty_repetition_direct_block
            (sequence_repeat_cond blocks_used last_block.data next_block.data)
            config.penalty_repetition_sequence
        - penaltyTerm (vvv_cond last_block.data next_block.data)
            config.penalty_boundary_vowels_3plus
        - penaltyTerm2 (cccc_cond last_block.data next_block.data)
            config.penalty_boundary_consonants_4plus
            (ccc_cond last_block.data next_block.data)
            config.penalty_boundary_consonants_3
        - penaltyTerm ((!last_block.data.isEmpty && !next_block.data.isEmpty) &&
              triple_letter_cond last_block.data next_block.data)
            config.penalty_repetition_triple_letter
        - syllablePenaltyTerm (!last_block.data.isEmpty && !next_block.data.isEmpty)
            (syllable_match last_block.data next_block.data)
            ("lrsnmeo".toList.contains ((last_block.data.getLastD ' ').toLower))
            config.penalty_repetition_syllable
            config.penalty_repetition_syllable_common_multiplier
        - penaltyTerm ((!last_block.data.isEmpty && !next_block.data.isEmpty) &&
              vowel_across_cond last_block.data next_block.data)
            config.penalty_repetition_vowel_across_boundary
        - penaltyTerm ((!last_block.data.isEmpty && !next_block.data.isEmpty) &&
              awkward_vowel_cond last_block.data next_block.data)
            config.penalty_boundary_awkward_vowel_join
        - penaltyTerm ((!last_block.data.isEmpty && !next_block.data.isEmpty) &&
              hard_stop_join_cond last_block.data next_block.data)
            config.penalty_boundary_hard_stop_join
        - penaltyTerm ((!last_block.data.isEmpty && !next_block.data.isEmpty) &&
              cluster_hard_stop_cond last_block.data next_block.data)
            config.penalty_boundary_cluster_hard_stop
        + penaltyTerm ((!last_block.data.isEmpty && !next_block.data.isEmpty) &&
              smooth_transition_cond last_block.data next_block.data)
            config.bonus_smooth_transition
        - letterPairTerm pairPenalty (last_block.data ++ next_block.data)
            config.penalty_letter_pairs_factor)

end FantasyNameGen

namespace FantasyNameGen

/-! Helper lemmas for evaluating and bounding the scorer. -/

theorem sum_map_zero {α : Type} (L : List α) : (L.map (fun _ => (0 : ℚ))).sum = 0 := by
  induction L with
  | nil => rfl
  | cons a t ih => simp [ih]

theorem calc_pairs_zero (l : List Char) :
    calculate_letter_pair_penalties zeroPairPenalties l = 0 := by
  unfold calculate_letter_pair_penalties zeroPairPenalties
  split
  · rfl
  · exact sum_map_zero _

theorem penaltyTerm_nonneg {c : Bool} {p : ℚ} (hp : 0 ≤ p) : 0 ≤ penaltyTerm c p := by
  unfold penaltyTerm; split <;> simp [hp]

theorem penaltyTerm_le {c : Bool} {p : ℚ} (hp : 0 ≤ p) : penaltyTerm c p ≤ p := by
  unfold penaltyTerm; split <;> simp [hp]

theorem penaltyTerm2_nonneg {c1 c2 : Bool} {p1 p2 : ℚ} (h1 : 0 ≤ p1) (h2 : 0 ≤ p2) :
    0 ≤ penaltyTerm2 c1 p1 c2 p2 := by
  unfold penaltyTerm2; split
  · exact h1
  · split
    · exact h2
    · exact le_refl 0

theorem syllablePenaltyTerm_nonneg {g : Bool} {m : Option Nat} {cc : Bool} {p m1 : ℚ}
    (hp : 0 ≤ p) (hm : 0 ≤ m1) :
    0 ≤ syllablePenaltyTerm g m cc p m1 := by
  unfold syllablePenaltyTerm
  split
  · match m with
    | some i =>
      simp only
      split
      · exact mul_nonneg hp hm
      · exact mul_nonneg hp (by norm_num)
    | none => simp
  · simp

theorem letterPairTerm_nonneg {pp : String → ℚ} {combined : List Char} {factor : ℚ}
    (hpp : ∀ s, 0 ≤ pp s) : 0 ≤ letterPairTerm pp combined factor := by
  unfold letterPairTerm
  split
  · rename_i hf
    refine mul_nonneg ?_ hf.le
    unfold calculate_letter_pair_penalties
    split
    · exact le_refl 0
    · refine List.sum_nonneg ?_
      intro x hx
      obtain ⟨p, _, rfl⟩ := List.mem_map.1 hx
      exact hpp _
  · exact le_refl 0

end FantasyNameGen


namespace FantasyNameGen

/-- `BLACKLISTED_COMBOS_BY_LEVEL` from data/blacklisted_combos.py, in source
order (levels 5, 4, 3, 2, 1; duplicates kept as written). -/
def BLACKLISTED_COMBOS_BY_LEVEL : List (Nat × List String) := [
  (5, ["thl", "thr", "sht", "shn", "skr", "spl", "spr", "str", "chth", 
    "phth", "oue", "tsk", "tsx", "tsl", "tsm", "tsn", "tsp", "tsr", "tsw", 
    "tsy", "tsz", "scl", "scr", "scw", "shm", "shn", "shp", "shr", "sht", 
    "shw", "shy", "sfl", "sfr", "sgr", "skl", "skw", "sky", "slm", "sln", 
    "slp", "slw", "smr", "snl", "snr", "snw", "spw", "spy", "srw", "sry", 
    "stl", "stw", "swl", "swr", "swy", "szl", "szr", "szw", "szy"]),
  (4, ["bk", "bp", "bd", "db", "dp", "dk", "gb", "gp", "gd", "kb", "kp", 
    "kd", "pb", "pk", "pd", "tb", "tp", "sb", "sd", "sg", "sv", "szk", "szp", 
    "szt", "szd", "sq", "rbg", "rdz", "rks", "rxk", "rxg", "rxd", "rxb", 
    "rpz", "rtz", "aoo", "eoo", "ioo", "ouu", "yuu", "aeu", "eiu", "iou", 
    "oau", "uai", "aio", "eao", "iao", "oai", "uei", "aoi", "eei", "iui", 
    "oeo", "uau", "iiu", "uuo", "uui", "jq", "qj", "qx", "xq", "jx", "xj", 
    "vq", "qv", "wq", "qw", "zq", "qz", "cq", "qc", "gq", "qg", "kq", "qk", 
    "pq", "qp", "tq", "qt", "bz", "dz", "gz", "vz", "ao", "eo", "iu", "oa", 
    "oe", "ua", "ue", "ui", "uo", "uy", "yi", "iy", "bg", "bm", "bp", "bq", 
    "bv", "bw", "bx", "by", "bz", "cb", "cd", "cf", "cg", "ck", "cm", "cp", 
    "cq", "cv", "cw", "cx", "cy", "cz", "db", "dc", "df", "dg", "dk", "dm", 
    "dq", "dv", "dw", "dx", "dy", "fb", "fc", "fd", "fg", "fk", "fm", "fp", 
    "fq", "fv", "fw", "fx", "fy", "fz", "gc", "gf", "gk", "gm", "gq", "gv", 
    "gw", "gx", "gy", "hb", "hc", "hd", "hf", "hg", "hj", "hk", "hm", "hp", 
    "hq", "hv", "hw", "hx", "hy", "hz", "jb", "jc", "jd", "jf", "jg", "jh", 
    "jk", "jm", "jp", "jr", "jt", "jv", "jw", "jy", "jz", "kb", "kc", "kf", 
    "kg", "kj", "km", "kq", "kv", "kw", "kx", "ky", "kz", "lb", "lc", "ld", 
    "lf", "lg", "lj", "lk", "lm", "lq", "lv", "lw", "lx", "ly", "lz", "mb", 
    "mc", "md", "mf", "mg", "mh", "mk", "mq", "mv", "mw", "mx", "my", "mz", 
    "nb", "nc", "nd", "nf", "ng", "nh", "nk", "nm", "nq", "nv", "nw", "nx", 
    "ny", "nz", "pb", "pc", "pd", "pf", "pg", "pk", "pm", "pn", "pq", "pv", 
    "pw", "px", "py", "pz", "rb", "rc", "rd", "rf", "rg", "rh", "rj", "rk", 
    "rm", "rq", "rv", "rw", "rx", "ry", "rz", "sb", "sc", "sf", "sg", "sh", 
    "sj", "sk", "sm", "sq", "sv", "sw", "sx", "sy", "sz", "tb", "tc", "td", 
    "tf", "tg", "tj", "tk", "tm", "tq", "tv", "tw", "tx", "ty", "tz", "vb", 
    "vc", "vd", "vf", "vg", "vh", "vj", "vk", "vm", "vn", "vp", "vr", "vs", 
    "vt", "vw", "vx", "vy", "wb", "wc", "wd", "wf", "wg", "wh", "wj", "wk", 
    "wm", "wn", "wp", "wr", "ws", "wt", "wv", "wz", "xb", "xc", "xd", "xf", 
    "xh", "xi", "xk", "xm", "xn", "xo", "xp", "xr", "xs", "xt", "xu", "xv", 
    "xy"]),
  (3, ["kh", "gh", "bh", "dh", "nj", "mj", "bj", "gj", "dj", "sf", "ft", 
    "kt", "pt", "bn", "cn", "fn", "gm", "mn", "pf", "qf", "qm", "qn", "qv", 
    "qw", "qy", "wx", "wy", "nzr", "nzl", "nzt", "nzd", "nzg", "mzr", "mzl", 
    "ndg", "nkg", "nbg", "nkd", "ngz", "nkb", "nkp", "nkt", "npk", "npg", 
    "ndb", "ndp", "ndt", "ntd", "ntb", "ntp", "mgd", "mgz", "mkb", "mkp", 
    "mkt", "mtk", "mpk", "mpg", "mbd", "mbg", "mdb", "mdg", "mgb", "mgd", 
    "aie", "eie", "oie", "uie", "aiu", "oiu", "iua", "uio", "ioi", "ooi", 
    "ch", "fh", "jh", "lh", "mh", "nh", "ph", "rh", "sh", "th", "vh", "wh", 
    "yh", "zh", "hm", "hn", "hp", "hr", "hs", "ht", "hv", "hw", "hy", "hz", 
    "nl", "nm", "np", "nr", "ns", "nt", "nv", "nw", "ny", "ml", "mp", "mr", 
    "ms", "mt", "mv", "mw", "my", "lg", "lh", "lj", "lk", "lq", "lv", "lw", 
    "lx", "ly", "lz", "rg", "rh", "rj", "rk", "rq", "rv", "rw", "rx", "ry", 
    "rz", "aae", "aai", "aao", "aau", "aay", "aea", "aei", "aeo", "aeu", 
    "aey", "aia", "aie", "aio", "aiu", "aiy", "aoa", "aoe", "aoi", "aou", 
    "aoy", "aua", "aue", "aui", "auo", "auy", "aya", "aye", "ayi", "ayo", 
    "ayu", "eae", "eai", "eao", "eau", "eay", "eea", "eei", "eeo", "eeu", 
    "eey", "eia", "eie", "eio", "eiu", "eiy", "eoa", "eoe", "eoi", "eou", 
    "eoy", "eua", "eue", "eui", "euo", "euy", "eya", "eye", "eyi", "eyo", 
    "eyu"]),
  (2, ["qk", "qp", "qz", "jx", "jq", "jz", "vz", "vx", "vq", "wx", "wq", 
    "wz", "bv", "cj", "dg", "fv", "gj", "kg", "td", "dt", "bt", "gt", "bsk", 
    "bsp", "bst", "dsk", "dsp", "dst", "gsk", "gsp", "gst", "rcb", "rcd", 
    "rcg", "rdg", "rfg", "rkg", "rpg", "rtg", "rjb", "rjd", "rjg", "rjk", 
    "rvb", "rvd", "rvg", "rvk", "rvp", "rvt", "ssx", "ssz", "szs", "szx", 
    "xss", "xsz", "zss", "zsx", "zsz", "xzs", "xzz", "zxs", "zxz", "scz", 
    "szc", "zcs", "zcz", "tzs", "tsz", "zts", "ztz", "ssj", "ssl", "ssm", 
    "ssn", "ssp", "ssr", "sst", "ssv", "ssw", "ssy", "zzb", "zzc", "zzd", 
    "zzf", "zzg", "zzh", "zzj", "zzk", "zzl", "zzm", "zzn", "zzp", "zzq", 
    "zzr", "zzt", "zzv", "zzw", "zzy", "xxb", "xxc", "xxd", "xxf", "xxg", 
    "xxh", "xxj", "xxk", "xxl", "xxm", "xxn", "xxp", "xxq", "xxr", "xxs", 
    "xxt", "xxv", "xxw", "xxy", "xxz", "qqb", "qqc", "qqd", "qqf", "qqg", 
    "qqh", "qqj", "qqk", "qql", "qqm", "qqn", "qqp", "qqr", "qqs", "qqt", 
    "qqv", "qqw", "qqx", "qqy", "qqz", "bcd", "bcf", "bcg", "bch", "bcj", 
    "bck", "bcl", "bcm", "bcn", "bcp", "bcr", "bcs", "bct", "bcv", "bcw", 
    "bcx", "bcy", "bcz", "cdf", "cdg", "cdh", "cdj", "cdk", "cdl", "cdm", 
    "cdn", "cdp", "cdr", "cds", "cdt", "cdv", "cdw", "cdx", "cdy", "cdz", 
    "dfg", "dfh", "dfj", "dfk", "dfl", "dfm", "dfn", "dfp", "dfr", "dfs", 
    "dft", "dfv", "dfw", "dfx", "dfy", "dfz", "yaa", "yae", "yai", "yao", 
    "yau", "yea", "yee", "yei", "yeo", "yeu", "yia", "yie", "yii", "yio", 
    "yiu", "yoa", "yoe", "yoi", "yoo", "you", "yua", "yue", "yui", "yuo", 
    "yuu"]),
  (1, ["qxz", "jqx", "vzx", "wzx", "zxq", "xqz", "xzq", "zqx", "qzx", "bcdn", 
    "ghjk", "bscr", "bzdr", "ckstr", "dscr", "dspr", "dzdr", "fthm", "gscr", 
    "gspr", "gzdr", "kstr", "kspr", "kzdr", "lsthr", "mscr", "mspr", "mzdr", 
    "nscr", "nspr", "nzdr", "pscr", "pspr", "pzdr", "rscr", "rspr", "rzdr", 
    "sfth", "sfthr", "sktr", "skstr", "tscr", "tspr", "tzdr", "vscr", "vspr", 
    "vzdr", "xscr", "xspr", "xzdr", "zscr", "zspr", "zzdr", "rgrv", "zrz", 
    "zssx", "tkt", "pkt", "dkt", "gkt", "bkt", "fkt", "zbl", "zdl", "zgl", 
    "zkl", "zpl", "zrp", "zrt", "zrv", "zrx", "zrz", "ztl", "zml", "znl", 
    "zkw", "zpw", "ztw", "zjr", "zjl", "zhw", "xbl", "xcl", "xdl", "xfl", 
    "xgl", "xkl", "xpl", "xsl", "xtl", "xvl", "xzl", "xg", "xj", "xq", "xw", 
    "xx", "xz", "qxzw", "jqxz", "vzxq", "wzxq", "zxqw", "xqzw", "xzqw", 
    "zqxw", "qzxw", "qxzj", "jqxw", "vzxj", "wzxj", "zxqj", "xqzj", "xzqj", 
    "zqxj", "qzxj", "qxzy", "jqxy", "vzxy", "wzxy", "zxqy", "xqzy", "xzqy", 
    "zqxy", "qzxy", "xzqw", "zxqy", "qxzv", "xqzv", "zqxv", "vqxz", "vxqz", 
    "vzqx", "aaa", "eee", "iii", "ooo", "uuu", "aae", "aai", "aao", "aau", 
    "aea", "aei", "aeo", "aeu", "aia", "aie", "aio", "aiu", "aoa", "aoe", 
    "aoi", "aou", "aua", "aue", "aui", "auo", "eaa", "eae", "eai", "eao", 
    "eau", "eea", "eei", "eeo", "eeu", "eia", "eie", "eio", "eiu", "eoa", 
    "eoe", "eoi", "eou", "eua", "eue", "eui", "euo", "iaa", "iae", "iai", 
    "iao", "iau", "iea", "iee", "ieo", "ieu", "iia", "iie", "iio", "iiu", 
    "ioa", "ioe", "ioi", "iou", "iua", "iue", "iui", "iuo", "oaa", "oae", 
    "oai", "oao", "oau", "oea", "oee", "oei", "oeo", "oeu", "oia", "oie", 
    "oii", "oio", "oiu", "ooa", "ooe", "ooi", "oou", "oua", "oue", "oui", 
    "ouo", "uaa", "uae", "uai", "uao", "uau", "uea", "uee", "uei", "ueo", 
    "ueu", "uia", "uie", "uii", "uio", "uiu", "uoa", "uoe", "uoi", "uoo", 
    "uou", "uua", "uue", "uui", "uuo", "aaae", "aaai", "aaao", "aaau", 
    "aaay", "aeee", "aeei", "aeeo", "aeeu", "aeey", "aiii", "aiie", "aiio", 
    "aiiu", "aiiy", "aooo", "aooe", "aooi", "aoou", "aooy", "auuu", "auue", 
    "auui", "auuo", "auoy", "ayee", "ayei", "ayeo", "ayeu", "ayey", "eaaa", 
    "eaae", "eaai", "eaao", "eaau", "eeea", "eeei", "eeeo", "eeeu", "eeey", 
    "eiaa", "eiae", "eiai", "eiao", "eiau", "eoaa", "eoae", "eoai", "eoao", 
    "eoau", "euaa", "euae", "euai", "euao", "euau", "eyaa", "eyae", "eyai", 
    "eyao", "eyau"])]

/-- Modelled from the spec: `score_compatibility` contains no blacklist rule
at all (the boundary string `last_chars`/`next_chars` it builds is dead
code), so the predicate the claim describes is reconstructed from the spec
text: build the boundary string from the last ≤3 characters of the previous
fragment plus the first ≤3 of the next; a blacklisted cluster of any
severity level hits if it appears inside the boundary string or can be
split across the join point (every split of a cluster across the join lies
inside this ≤6-character boundary string, so containment covers both
disjuncts). -/
def boundary_has_blacklisted_cluster (last_block next_block : String) : Bool :=
  let boundary := toLowerList (takeLast 3 last_block.data ++ next_block.data.take 3)
  BLACKLISTED_COMBOS_BY_LEVEL.any (fun lv => lv.2.any (fun cl => isInfixOfB cl.data boundary))

theorem calc_pairs_eq_zero {pp : String → ℚ} (hpp : ∀ s, pp s = 0) (l : List Char) :
    calculate_letter_pair_penalties pp l = 0 := by
  unfold calculate_letter_pair_penalties
  split
  · rfl
  · simp only [hpp]
    exact sum_map_zero _

/-- Concrete scorer run: previous `"an"`, next `"to"`, default config, empty
pair-penalty table. -/
theorem score_an_to_eq :
    score_compatibility zeroPairPenalties "an" "to" ["an"] defaultScoringConfig = 100 := by
  norm_num [score_compatibility, defaultScoringConfig, penaltyTerm, penaltyTerm2,
    syllablePenaltyTerm, letterPairTerm, calc_pairs_zero, max_def,
    (by decide : direct_repeat_cond "an".data "to".data = false),
    (by decide : sequence_repeat_cond ["an"] "an".data "to".data = false),
    (by decide : vvv_cond "an".data "to".data = false),
    (by decide : cccc_cond "an".data "to".data = false),
    (by decide : ccc_cond "an".data "to".data = false),
    (by decide : triple_letter_cond "an".data "to".data = false),
    (by decide : syllable_match "an".data "to".data = none),
    (by decide : vowel_across_cond "an".data "to".data = false),
    (by decide : awkward_vowel_cond "an".data "to".data = false),
    (by decide : hard_stop_join_cond "an".data "to".data = false),
    (by decide : cluster_hard_stop_cond "an".data "to".data = false),
    (by decide : smooth_transition_cond "an".data "to".data = false),
    (by decide : "an".data.isEmpty = false),
    (by decide : "to".data.isEmpty = false)]

set_option maxRecDepth 40000 in
/-- Claim C1, counterexample: the fragment pair `"an"`/`"to"` has the
level-3 blacklisted cluster `"nt"` inside its boundary string, yet
`score_compatibility` subtracts nothing for it — the score is exactly 100,
so no per-level blacklist penalty is ever applied. -/
theorem C1_counterexample :
    boundary_has_blacklisted_cluster "an" "to" = true ∧
    score_compatibility zeroPairPenalties "an" "to" ["an"] defaultScoringConfig = 100 :=
  ⟨by decide, score_an_to_eq⟩

/-- Claim C1 (amended): `score_compatibility` applies no blacklisted-cluster
penalty at all; with the repository's (absent, hence zero) letter-pair
table, whenever none of the rules the code actually implements fires, the
score is exactly 100 — independent of any blacklisted cluster in the
boundary string. -/
theorem score_compatibility_ignores_blacklist
    (pp : String → ℚ) (last next : String) (used : List String) (cfg : ScoringConfig)
    (hpp : ∀ s, pp s = 0)
    (hln : last.data.isEmpty = false) (hnn : next.data.isEmpty = false)
    (h1 : direct_repeat_cond last.data next.data = false)
    (h2 : sequence_repeat_cond used last.data next.data = false)
    (h3 : vvv_cond last.data next.data = false)
    (h4 : cccc_cond last.data next.data = false)
    (h5 : ccc_cond last.data next.data = false)
    (h6 : triple_letter_cond last.data next.data = false)
    (h7 : syllable_match last.data next.data = none)
    (h8 : vowel_across_cond last.data next.data = false)
    (h9 : awkward_vowel_cond last.data next.data = false)
    (h10 : hard_stop_join_cond last.data next.data = false)
    (h11 : cluster_hard_stop_cond last.data next.data = false)
    (h12 : smooth_transition_cond last.data next.data = false) :
    score_compatibility pp last next used cfg = 100 := by
  rw [score_compatibility]
  rw [hnn, hln]
  simp only [Bool.false_eq_true, if_false]
  rw [h1, h2, h3, h4, h5, h6, h7, h8, h9, h10, h11, h12]
  simp only [penaltyTerm, penaltyTerm2, syllablePenaltyTerm, letterPairTerm,
    calc_pairs_eq_zero hpp, Bool.and_false, Bool.false_and, Bool.and_self,
    if_false, Bool.false_eq_true, zero_mul, ite_self]
  norm_num [max_def]

/-- Witness for `score_compatibility_ignores_blacklist` at the concrete
input `"an"`/`"to"`. -/
theorem score_compatibility_ignores_blacklist_witness :
    direct_repeat_cond "an".data "to".data = false ∧
    score_compatibility zeroPairPenalties "an" "to" ["an"] defaultScoringConfig = 100 :=
  ⟨by decide,
    score_compatibility_ignores_blacklist zeroPairPenalties "an" "to" ["an"]
      defaultScoringConfig (fun _ => rfl) (by decide) (by decide) (by decide) (by decide)
      (by decide) (by decide) (by decide) (by decide) (by decide) (by decide) (by decide)
      (by decide) (by decide) (by decide)⟩

/-- Concrete scorer run: previous `"el"`, next `"a"` earns the
smooth-transition bonus with no penalty, scoring 115. -/
theorem score_el_a_eq :
    score_compatibility zeroPairPenalties "el" "a" ["el"] defaultScoringConfig = 115 := by
  norm_num [score_compatibility, defaultScoringConfig, penaltyTerm, penaltyTerm2,
    syllablePenaltyTerm, letterPairTerm, calc_pairs_zero, max_def,
    (by decide : direct_repeat_cond "el".data "a".data = false),
    (by decide : sequence_repeat_cond ["el"] "el".data "a".data = false),
    (by decide : vvv_cond "el".data "a".data = false),
    (by decide : cccc_cond "el".data "a".data = false),
    (by decide : ccc_cond "el".data "a".data = false),
    (by decide : triple_letter_cond "el".data "a".data = false),
    (by decide : syllable_match "el".data "a".data = none),
    (by decide : vowel_across_cond "el".data "a".data = false),
    (by decide : awkward_vowel_cond "el".data "a".data = false),
    (by decide : hard_stop_join_cond "el".data "a".data = false),
    (by decide : cluster_hard_stop_cond "el".data "a".data = false),
    (by decide : smooth_transition_cond "el".data "a".data = true),
    (by decide : "el".data.isEmpty = false),
    (by decide : "a".data.isEmpty = false)]

/-- Claim C3, counterexample: with the default configuration the pair
`"el"`/`"a"` scores 115 — the smooth-transition bonus pushes the result
above 100, so the score does not lie in [0, 100]. -/
theorem C3_counterexample :
    ¬ (score_compatibility zeroPairPenalties "el" "a" ["el"] defaultScoringConfig ≤ 100) := by
  rw [score_el_a_eq]
  norm_num

/-- Claim C3 (amended): the compatibility score is bounded below by 0
(the final `max(0.0, score)`), and — when every penalty magnitude, the
common-letter multiplier, the smooth-transition bonus and the letter-pair
table are non-negative — bounded above by `100 + bonus_smooth_transition`
(the bonus is added at most once); there is no clamp at 100. -/
theorem score_compatibility_bounds
    (pp : String → ℚ) (last next : String) (used : List String) (cfg : ScoringConfig)
    (hpp : ∀ s, 0 ≤ pp s)
    (hd : 0 ≤ cfg.penalty_repetition_direct_block)
    (hsq : 0 ≤ cfg.penalty_repetition_sequence)
    (hsy : 0 ≤ cfg.penalty_repetition_syllable)
    (hva : 0 ≤ cfg.penalty_repetition_vowel_across_boundary)
    (htr : 0 ≤ cfg.penalty_repetition_triple_letter)
    (hmu : 0 ≤ cfg.penalty_repetition_syllable_common_multiplier)
    (hc3 : 0 ≤ cfg.penalty_boundary_consonants_3)
    (hc4 : 0 ≤ cfg.penalty_boundary_consonants_4plus)
    (hv3 : 0 ≤ cfg.penalty_boundary_vowels_3plus)
    (hhs : 0 ≤ cfg.penalty_boundary_hard_stop_join)
    (haw : 0 ≤ cfg.penalty_boundary_awkward_vowel_join)
    (hcl : 0 ≤ cfg.penalty_boundary_cluster_hard_stop)
    (hbo : 0 ≤ cfg.bonus_smooth_transition) :
    0 ≤ score_compatibility pp last next used cfg ∧
    score_compatibility pp last next used cfg ≤ 100 + cfg.bonus_smooth_transition := by
  rw [score_compatibility]
  split
  · constructor
    · exact le_refl 0
    · linarith
  split
  · constructor <;> linarith
  · constructor
    · exact le_max_left _ _
    · refine max_le (by linarith) ?_
      have t1 : 0 ≤ penaltyTerm2 (direct_repeat_cond last.data next.data)
          cfg.penalty_repetition_direct_block
          (sequence_repeat_cond used last.data next.data)
          cfg.penalty_repetition_sequence := penaltyTerm2_nonneg hd hsq
      have t2 : 0 ≤ penaltyTerm (vvv_cond last.data next.data)
          cfg.penalty_boundary_vowels_3plus := penaltyTerm_nonneg hv3
      have t3 : 0 ≤ penaltyTerm2 (cccc_cond last.data next.data)
          cfg.penalty_boundary_consonants_4plus
          (ccc_cond last.data next.data)
          cfg.penalty_boundary_consonants_3 := penaltyTerm2_nonneg hc4 hc3
      have t4 : 0 ≤ penaltyTerm ((!last.data.isEmpty && !next.data.isEmpty) &&
          triple_letter_cond last.data next.data)
          cfg.penalty_repetition_triple_letter := penaltyTerm_nonneg htr
      have t5 : 0 ≤ syllablePenaltyTerm (!last.data.isEmpty && !next.data.isEmpty)
          (syllable_match last.data next.data)
          ("lrsnmeo".toList.contains ((last.data.getLastD ' ').toLower))
          cfg.penalty_repetition_syllable
          cfg.penalty_repetition_syllable_common_multiplier :=
        syllablePenaltyTerm_nonneg hsy hmu
      have t6 : 0 ≤ penaltyTerm ((!last.data.isEmpty && !next.data.isEmpty) &&
          vowel_across_cond last.data next.data)
          cfg.penalty_repetition_vowel_across_boundary := penaltyTerm_nonneg hva
      have t7 : 0 ≤ penaltyTerm ((!last.data.isEmpty && !next.data.isEmpty) &&
          awkward_vowel_cond last.data next.data)
          cfg.penalty_boundary_awkward_vowel_join := penaltyTerm_nonneg haw
      have t8 : 0 ≤ penaltyTerm ((!last.data.isEmpty && !next.data.isEmpty) &&
          hard_stop_join_cond last.data next.data)
          cfg.penalty_boundary_hard_stop_join := penaltyTerm_nonneg hhs
      have t9 : 0 ≤ penaltyTerm ((!last.data.isEmpty && !next.data.isEmpty) &&
          cluster_hard_stop_cond last.data next.data)
          cfg.penalty_boundary_cluster_hard_stop := penaltyTerm_nonneg hcl
      have t10 : penaltyTerm ((!last.data.isEmpty && !next.data.isEmpty) &&
          smooth_transition_cond last.data next.data)
          cfg.bonus_smooth_transition ≤ cfg.bonus_smooth_transition := penaltyTerm_le hbo
      have t11 : 0 ≤ letterPairTerm pp (last.data ++ next.data)
          cfg.penalty_letter_pairs_factor := letterPairTerm_nonneg hpp
      linarith

/-- Witness for `score_compatibility_bounds` at the concrete input
`"el"`/`"a"` with the default configuration. -/
theorem score_compatibility_bounds_witness :
    0 ≤ score_compatibility zeroPairPenalties "el" "a" ["el"] defaultScoringConfig ∧
    score_compatibility zeroPairPenalties "el" "a" ["el"] defaultScoringConfig ≤
      100 + defaultScoringConfig.bonus_smooth_transition :=
  score_compatibility_bounds zeroPairPenalties "el" "a" ["el"] defaultScoringConfig
    (fun _ => le_refl 0)
    (by norm_num [defaultScoringConfig]) (by norm_num [defaultScoringConfig])
    (by norm_num [defaultScoringConfig]) (by norm_num [defaultScoringConfig])
    (by norm_num [defaultScoringConfig]) (by norm_num [defaultScoringConfig])
    (by norm_num [defaultScoringConfig]) (by norm_num [defaultScoringConfig])
    (by norm_num [defaultScoringConfig]) (by norm_num [defaultScoringConfig])
    (by norm_num [defaultScoringConfig]) (by norm_num [defaultScoringConfig])
    (by norm_num [defaultScoringConfig])

/-- Concrete scorer run: `"Kor"` repeated.  Besides the direct-repeat
penalty (75), the syllable-repetition rule fires at window length 3 (80)
and the vowel-across-boundary rule fires (20); `100 − 75 − 80 − 20` is
clamped to 0. -/
theorem score_Kor_Kor_eq :
    score_compatibility zeroPairPenalties "Kor" "Kor" ["Kor"] defaultScoringConfig = 0 := by
  norm_num [score_compatibility, defaultScoringConfig, penaltyTerm, penaltyTerm2,
    syllablePenaltyTerm, letterPairTerm, calc_pairs_zero, max_def,
    (by decide : direct_repeat_cond "Kor".data "Kor".data = true),
    (by decide : vvv_cond "Kor".data "Kor".data = false),
    (by decide : cccc_cond "Kor".data "Kor".data = false),
    (by decide : ccc_cond "Kor".data "Kor".data = false),
    (by decide : triple_letter_cond "Kor".data "Kor".data = false),
    (by decide : syllable_match "Kor".data "Kor".data = some 3),
    (by decide : vowel_across_cond "Kor".data "Kor".data = true),
    (by decide : awkward_vowel_cond "Kor".data "Kor".data = false),
    (by decide : hard_stop_join_cond "Kor".data "Kor".data = false),
    (by decide : cluster_hard_stop_cond "Kor".data "Kor".data = false),
    (by decide : smooth_transition_cond "Kor".data "Kor".data = false),
    (by decide : "Kor".data.isEmpty = false)]

/-- Claim C4, counterexample: with the default configuration (whose
direct-block penalty is exactly 75), `"Kor"` followed by `"Kor"` does not
score 25 — the direct-repeat rule is not the only rule that fires. -/
theorem C4_counterexample :
    defaultScoringConfig.penalty_repetition_direct_block = 75 ∧
    score_compatibility zeroPairPenalties "Kor" "Kor" ["Kor"] defaultScoringConfig ≠ 25 := by
  constructor
  · norm_num [defaultScoringConfig]
  · rw [score_Kor_Kor_eq]
    norm_num

/-- Claim C4 (amended): with the default configuration (direct-block
penalty 75), `"Kor"`/`"Kor"` scores 0: the direct-repeat rule (75) fires
together with the length-3 syllable-repetition rule (80) and the
vowel-across-boundary rule (20), and the result is clamped at the floor 0. -/
theorem score_Kor_Kor_amended :
    direct_repeat_cond "Kor".data "Kor".data = true ∧
    syllable_match "Kor".data "Kor".data = some 3 ∧
    vowel_across_cond "Kor".data "Kor".data = true ∧
    score_compatibility zeroPairPenalties "Kor" "Kor" ["Kor"] defaultScoringConfig = 0 :=
  ⟨by decide, by decide, by decide, score_Kor_Kor_eq⟩

end FantasyNameGen

namespace FantasyNameGen

/-- The five-axis vibe attribute record of one block (a row of a block CSV;
`vowel_first` is populated only for prefix blocks).  `none` models a key
missing from the Python dict; the Python falsy/non-dict case of
`score_vibe_match` is modelled by `Option BlockVibes = none` at the call
site. -/
structure BlockVibes where
  good_evil : Option ℚ := none
  elegant_rough : Option ℚ := none
  common_exotic : Option ℚ := none
  weak_powerful : Option ℚ := none
  fem_masc : Option ℚ := none
  vowel_first : Option String := none

/-- The target vibe ranges of a generation request (`target_vibes` dict):
per axis an optional inclusive `[min, max]` range. -/
structure TargetVibes where
  good_evil : Option (ℚ × ℚ) := none
  elegant_rough : Option (ℚ × ℚ) := none
  common_exotic : Option (ℚ × ℚ) := none
  weak_powerful : Option (ℚ × ℚ) := none
  fem_masc : Option (ℚ × ℚ) := none

/-- Per-axis distance of `score_vibe_match`: missing block data costs
`(9/2)·1.2`; no target range costs the distance from neutral 5; a value
inside the range costs 0; a value outside costs the distance to the nearer
range edge. -/
def vibe_axis_distance (block_val : Option ℚ) (target_range : Option (ℚ × ℚ)) : ℚ :=
  match block_val with
  | none => (9 / 2) * 1.2
  | some v =>
    match target_range with
    | none => |v - 5|
    | some (lo, hi) => if lo ≤ v ∧ v ≤ hi then 0 else min |v - lo| |v - hi|

/-- `score_vibe_match` from patterns.py: sum the five per-axis distances,
normalize by `5 × 9`, clamp the normalized distance to `[0,1]` (the `min`
with 1; distances are non-negative), and return `100·(1 − normalized)`. -/
def score_vibe_match (block_vibes : Option BlockVibes) (target_vibes : TargetVibes) : ℚ :=
  match block_vibes with
  | none => 50
  | some b =>
    let total_distance :=
      vibe_axis_distance b.good_evil target_vibes.good_evil +
      vibe_axis_distance b.elegant_rough target_vibes.elegant_rough +
      vibe_axis_distance b.common_exotic target_vibes.common_exotic +
      vibe_axis_distance b.weak_powerful target_vibes.weak_powerful +
      vibe_axis_distance b.fem_masc target_vibes.fem_masc
    100 * (1 - min (total_distance / 45) 1)

theorem vibe_axis_distance_nonneg (bv : Option ℚ) (tr : Option (ℚ × ℚ)) :
    0 ≤ vibe_axis_distance bv tr := by
  unfold vibe_axis_distance
  match bv with
  | none => norm_num
  | some v =>
    match tr with
    | none => exact abs_nonneg _
    | some (lo, hi) =>
      simp only
      split
      · exact le_refl 0
      · exact le_min (abs_nonneg _) (abs_nonneg _)

theorem vibe_axis_distance_pos {v lo hi : ℚ} (hrange : lo ≤ hi)
    (hout : ¬ (lo ≤ v ∧ v ≤ hi)) :
    0 < vibe_axis_distance (some v) (some (lo, hi)) := by
  unfold vibe_axis_distance
  simp only [if_neg hout]
  rcases not_and_or.1 hout with h | h
  · push_neg at h
    exact lt_min (abs_pos.2 (by linarith)) (abs_pos.2 (by linarith))
  · push_neg at h
    exact lt_min (abs_pos.2 (by linarith)) (abs_pos.2 (by linarith))

theorem vibe_axis_distance_in {v lo hi : ℚ} (hin : lo ≤ v ∧ v ≤ hi) :
    vibe_axis_distance (some v) (some (lo, hi)) = 0 := by
  unfold vibe_axis_distance
  simp only [if_pos hin]

/-- Claim C5: for a block whose five axis values are all present and a
target that sets a (well-formed) range for each axis, the vibe match score
is exactly 100 when every axis value lies inside its range, and strictly
below 100 as soon as one axis value lies outside its range. -/
theorem score_vibe_match_100_iff_in_range
    (v1 v2 v3 v4 v5 lo1 hi1 lo2 hi2 lo3 hi3 lo4 hi4 lo5 hi5 : ℚ)
    (h1 : lo1 ≤ hi1) (h2 : lo2 ≤ hi2) (h3 : lo3 ≤ hi3) (h4 : lo4 ≤ hi4) (h5 : lo5 ≤ hi5) :
    (((lo1 ≤ v1 ∧ v1 ≤ hi1) ∧ (lo2 ≤ v2 ∧ v2 ≤ hi2) ∧ (lo3 ≤ v3 ∧ v3 ≤ hi3) ∧
      (lo4 ≤ v4 ∧ v4 ≤ hi4) ∧ (lo5 ≤ v5 ∧ v5 ≤ hi5)) →
      score_vibe_match (some ⟨some v1, some v2, some v3, some v4, some v5, none⟩)
        ⟨some (lo1, hi1), some (lo2, hi2), some (lo3, hi3), some (lo4, hi4),
          some (lo5, hi5)⟩ = 100) ∧
    ((¬ ((lo1 ≤ v1 ∧ v1 ≤ hi1) ∧ (lo2 ≤ v2 ∧ v2 ≤ hi2) ∧ (lo3 ≤ v3 ∧ v3 ≤ hi3) ∧
      (lo4 ≤ v4 ∧ v4 ≤ hi4) ∧ (lo5 ≤ v5 ∧ v5 ≤ hi5))) →
      score_vibe_match (some ⟨some v1, some v2, some v3, some v4, some v5, none⟩)
        ⟨some (lo1, hi1), some (lo2, hi2), some (lo3, hi3), some (lo4, hi4),
          some (lo5, hi5)⟩ < 100) := by
  constructor
  · intro hin
    obtain ⟨c1, c2, c3, c4, c5⟩ := hin
    simp only [score_vibe_match, vibe_axis_distance_in c1, vibe_axis_distance_in c2,
      vibe_axis_distance_in c3, vibe_axis_distance_in c4, vibe_axis_distance_in c5]
    norm_num
  · intro hout
    have d1 := vibe_axis_distance_nonneg (some v1) (some (lo1, hi1))
    have d2 := vibe_axis_distance_nonneg (some v2) (some (lo2, hi2))
    have d3 := vibe_axis_distance_nonneg (some v3) (some (lo3, hi3))
    have d4 := vibe_axis_distance_nonneg (some v4) (some (lo4, hi4))
    have d5 := vibe_axis_distance_nonneg (some v5) (some (lo5, hi5))
    have htotal : 0 < vibe_axis_distance (some v1) (some (lo1, hi1)) +
        vibe_axis_distance (some v2) (some (lo2, hi2)) +
        vibe_axis_distance (some v3) (some (lo3, hi3)) +
        vibe_axis_distance (some v4) (some (lo4, hi4)) +
        vibe_axis_distance (some v5) (some (lo5, hi5)) := by
      by_cases c1 : lo1 ≤ v1 ∧ v1 ≤ hi1
      · by_cases c2 : lo2 ≤ v2 ∧ v2 ≤ hi2
        · by_cases c3 : lo3 ≤ v3 ∧ v3 ≤ hi3
          · by_cases c4 : lo4 ≤ v4 ∧ v4 ≤ hi4
            · by_cases c5 : lo5 ≤ v5 ∧ v5 ≤ hi5
              · exact absurd ⟨c1, c2, c3, c4, c5⟩ hout
              · have := vibe_axis_distance_pos h5 c5; linarith
            · have := vibe_axis_distance_pos h4 c4; linarith
          · have := vibe_axis_distance_pos h3 c3; linarith
        · have := vibe_axis_distance_pos h2 c2; linarith
      · have := vibe_axis_distance_pos h1 c1; linarith
    simp only [score_vibe_match]
    have hm : 0 < min ((vibe_axis_distance (some v1) (some (lo1, hi1)) +
        vibe_axis_distance (some v2) (some (lo2, hi2)) +
        vibe_axis_distance (some v3) (some (lo3, hi3)) +
        vibe_axis_distance (some v4) (some (lo4, hi4)) +
        vibe_axis_distance (some v5) (some (lo5, hi5))) / 45) 1 :=
      lt_min (by positivity) one_pos
    linarith

/-- Witness for `score_vibe_match_100_iff_in_range`: all five values 5 in
ranges `[1,10]` score exactly 100. -/
theorem score_vibe_match_100_iff_in_range_witness :
    ((1 : ℚ) ≤ 10) ∧
    score_vibe_match (some ⟨some 5, some 5, some 5, some 5, some 5, none⟩)
      ⟨some (1, 10), some (1, 10), some (1, 10), some (1, 10), some (1, 10)⟩ = 100 :=
  ⟨by norm_num,
    (score_vibe_match_100_iff_in_range 5 5 5 5 5 1 10 1 10 1 10 1 10 1 10
      (by norm_num) (by norm_num) (by norm_num) (by norm_num) (by norm_num)).1
      (by norm_num)⟩

end FantasyNameGen

namespace FantasyNameGen

/-! The candidate selector `PatternBlocks._get_scored_block_internal`.
Dicts become association lists in insertion order; every random draw is an
oracle field.  The Python per-candidate `try/except` and the
`isinstance(chosen_block, str)` guard are dead in the typed embedding
(scoring is total and pools hold strings), and the per-candidate skip of
non-dict vibe data cannot occur. -/

/-- The random draws of one `_get_scored_block_internal` call:
`vfDraw` is the outcome of `random.random() < vowel_first_pref`,
`shuffleAll` is `random.shuffle(candidate_scores)` (prefix only),
`shuffleTop` is `random.shuffle(top_candidates)` and `choice` is
`random.choice(top_candidates)`. -/
structure SelectOracle where
  vfDraw : Bool
  shuffleAll : List (ℚ × String) → List (ℚ × String)
  shuffleTop : List String → List String
  choice : List String → String

/-- Python `str.capitalize`. -/
def capitalizeStr (s : String) : String :=
  match s.data with
  | [] => ""
  | c :: rest => String.mk (c.toUpper :: rest.map Char.toLower)

/-- `err_prefix = f"Err{block_type.capitalize()}"`. -/
def err_prefix_of (block_type : String) : String := "Err" ++ capitalizeStr block_type

/-- STEP 1, candidate filtering: for prefixes with a vowel-first
preference, keep the blocks whose `vowel_first` flag matches the Bernoulli
draw, falling back to the whole dict when the filter empties the pool. -/
def initial_candidates (block_type : String) (block_type_dict : List (String × BlockVibes))
    (vowel_first_pref : Option ℚ) (vfDraw : Bool) : List (String × BlockVibes) :=
  if block_type = "prefix" ∧ vowel_first_pref ≠ none then
    let vf_str := if vfDraw then "1" else "0"
    let filtered := block_type_dict.filter (fun p => p.2.vowel_first == some vf_str)
    if filtered.isEmpty then block_type_dict else filtered
  else block_type_dict

/-- STEP 2, scoring: weighted sum of the vibe match and the phonetic
compatibility with the last context block (perfect compatibility for the
first block of a name). -/
def candidate_scores (pp : String → ℚ) (cands : List (String × BlockVibes))
    (blocks_used : List String) (target_vibes : TargetVibes)
    (scoring_config : ScoringConfig) : List (ℚ × String) :=
  cands.map (fun p =>
    let vibe_score := score_vibe_match (some p.2) target_vibes
    let last_block := blocks_used.getLastD ""
    let compatibility_score :=
      if last_block.data.isEmpty then 100
      else score_compatibility pp last_block p.1 blocks_used scoring_config
    (scoring_config.weight_vibe * vibe_score +
      scoring_config.weight_compatibility * compatibility_score, p.1))

/-- Descending-by-score order used by
`candidate_scores.sort(key=lambda x: x[0], reverse=True)`. -/
def scoreGe (a b : ℚ × String) : Prop := b.1 ≤ a.1

instance : DecidableRel scoreGe := fun a b => inferInstanceAs (Decidable (b.1 ≤ a.1))

instance : IsTotal (ℚ × String) scoreGe := ⟨fun a b => le_total b.1 a.1⟩

instance : IsTrans (ℚ × String) scoreGe := ⟨fun _ _ _ hab hbc => le_trans hbc hab⟩

/-- The scored pool of one call, before sorting. -/
def selector_scores (pp : String → ℚ) (block_type : String)
    (block_type_dict : List (String × BlockVibes)) (vowel_first_pref : Option ℚ)
    (blocks_used : List String) (target_vibes : TargetVibes)
    (scoring_config : ScoringConfig) (vfDraw : Bool) : List (ℚ × String) :=
  candidate_scores pp (initial_candidates block_type block_type_dict vowel_first_pref vfDraw)
    blocks_used target_vibes scoring_config

/-- STEP 3: the scored pool sorted descending by combined score (stable,
like Python's `list.sort`). -/
def selector_sorted (pp : String → ℚ) (block_type : String)
    (block_type_dict : List (String × BlockVibes)) (vowel_first_pref : Option ℚ)
    (blocks_used : List String) (target_vibes : TargetVibes)
    (scoring_config : ScoringConfig) (vfDraw : Bool) : List (ℚ × String) :=
  List.insertionSort scoreGe
    (selector_scores pp block_type block_type_dict vowel_first_pref blocks_used
      target_vibes scoring_config vfDraw)

/-- `candidate_scores[0]` after the sort: the best score and block text
(recorded before any shuffle). -/
def selector_best (pp : String → ℚ) (block_type : String)
    (block_type_dict : List (String × BlockVibes)) (vowel_first_pref : Option ℚ)
    (blocks_used : List String) (target_vibes : TargetVibes)
    (scoring_config : ScoringConfig) (vfDraw : Bool) : ℚ × String :=
  (selector_sorted pp block_type block_type_dict vowel_first_pref blocks_used
    target_vibes scoring_config vfDraw).headD (0, "")

/-- `_get_scored_block_internal` from patterns.py: filter, score, sort;
record the best; shuffle the whole sorted list for prefixes; return the
best outright below the low-score threshold; otherwise shuffle the top
`min(top_n_candidates, pool)` slice and pick one at random. -/
def get_scored_block_internal (pp : String → ℚ) (o : SelectOracle)
    (block_type : String) (block_type_dict : List (String × BlockVibes))
    (blocks_used : List String) (target_vibes : TargetVibes)
    (vowel_first_pref : Option ℚ) (scoring_config : ScoringConfig) : String :=
  if block_type_dict.isEmpty then err_prefix_of block_type ++ "DictEmpty"
  else
    if (initial_candidates block_type block_type_dict vowel_first_pref o.vfDraw).isEmpty then
      err_prefix_of block_type ++ "DictEmpty"
    else
      if (selector_scores pp block_type block_type_dict vowel_first_pref blocks_used
          target_vibes scoring_config o.vfDraw).isEmpty then
        err_prefix_of block_type ++ "ScoringFailed"
      else
        let sorted := selector_sorted pp block_type block_type_dict vowel_first_pref
          blocks_used target_vibes scoring_config o.vfDraw
        let best := selector_best pp block_type block_type_dict vowel_first_pref
          blocks_used target_vibes scoring_config o.vfDraw
        let shuffled := if block_type = "prefix" then o.shuffleAll sorted else sorted
        if best.1 < scoring_config.low_score_threshold then best.2
        else
          let pool_size := min scoring_config.top_n_candidates shuffled.length
          let top_candidates := (shuffled.take pool_size).map Prod.snd
          let shuffled_top := o.shuffleTop top_candidates
          if shuffled_top.isEmpty then best.2
          else o.choice shuffled_top

theorem initial_candidates_ne_empty {block_type : String}
    {block_type_dict : List (String × BlockVibes)} {vfp : Option ℚ} {draw : Bool}
    (h : block_type_dict.isEmpty = false) :
    (initial_candidates block_type block_type_dict vfp draw).isEmpty = false := by
  unfold initial_candidates
  split
  · set s : String := if draw then "1" else "0" with hs
    simp only
    split
    · exact h
    · rename_i hf
      exact Bool.eq_false_iff.mpr hf
  · exact h

theorem selector_scores_ne_empty {pp : String → ℚ} {block_type : String}
    {block_type_dict : List (String × BlockVibes)} {vfp : Option ℚ}
    {blocks_used : List String} {target : TargetVibes} {cfg : ScoringConfig} {draw : Bool}
    (h : block_type_dict.isEmpty = false) :
    (selector_scores pp block_type block_type_dict vfp blocks_used target cfg draw).isEmpty
      = false := by
  unfold selector_scores candidate_scores
  have h2 := @initial_candidates_ne_empty block_type block_type_dict vfp draw h
  revert h2
  cases initial_candidates block_type block_type_dict vfp draw <;> simp

end FantasyNameGen

namespace FantasyNameGen

theorem ne_nil_of_isEmpty_false {α : Type} {l : List α} (h : l.isEmpty = false) :
    l ≠ [] := by
  cases l <;> simp_all

/-- The low-score branch of `_get_scored_block_internal` returns the
top-ranked block text, regardless of the shuffle and choice draws. -/
theorem get_scored_block_internal_low (pp : String → ℚ) (o : SelectOracle)
    (block_type : String) (block_type_dict : List (String × BlockVibes))
    (blocks_used : List String) (target_vibes : TargetVibes)
    (vfp : Option ℚ) (cfg : ScoringConfig)
    (hne : block_type_dict.isEmpty = false)
    (hlow : (selector_best pp block_type block_type_dict vfp blocks_used target_vibes cfg
        o.vfDraw).1 < cfg.low_score_threshold) :
    get_scored_block_internal pp o block_type block_type_dict blocks_used target_vibes vfp cfg =
      (selector_best pp block_type block_type_dict vfp blocks_used target_vibes cfg
        o.vfDraw).2 := by
  unfold get_scored_block_internal
  simp only [hne, initial_candidates_ne_empty hne, selector_scores_ne_empty hne,
    Bool.false_eq_true, if_false]
  rw [if_pos hlow]

/-- The best entry after sorting carries the maximal combined score of the
pool. -/
theorem selector_best_is_max (pp : String → ℚ) (block_type : String)
    (block_type_dict : List (String × BlockVibes)) (vfp : Option ℚ)
    (blocks_used : List String) (target_vibes : TargetVibes) (cfg : ScoringConfig)
    (draw : Bool) :
    ∀ s ∈ selector_scores pp block_type block_type_dict vfp blocks_used target_vibes cfg draw,
      s.1 ≤ (selector_best pp block_type block_type_dict vfp blocks_used target_vibes cfg
        draw).1 := by
  intro s hs
  have hperm := List.perm_insertionSort scoreGe
    (selector_scores pp block_type block_type_dict vfp blocks_used target_vibes cfg draw)
  have hsorted := List.sorted_insertionSort scoreGe
    (selector_scores pp block_type block_type_dict vfp blocks_used target_vibes cfg draw)
  have hmem : s ∈ selector_sorted pp block_type block_type_dict vfp blocks_used
      target_vibes cfg draw := by
    unfold selector_sorted
    exact hperm.mem_iff.2 hs
  unfold selector_best
  rcases hcons : selector_sorted pp block_type block_type_dict vfp blocks_used
      target_vibes cfg draw with _ | ⟨a, t⟩
  · rw [hcons] at hmem
    cases hmem
  · rw [hcons] at hmem
    simp only [List.headD_cons]
    have hsorted' : List.Sorted scoreGe (a :: t) := by
      unfold selector_sorted at hcons
      rw [hcons] at hsorted
      exact hsorted
    rcases List.mem_cons.1 hmem with rfl | hmem'
    · exact le_refl _
    · exact List.rel_of_sorted_cons hsorted' s hmem'

/-- Claim C8: whenever the best combined score is below the low-score
threshold, the selector is deterministic in which fragment it returns: two
runs over the same filtered pool (equal vowel-first draws) agree, the
result is the top-ranked candidate, and its score dominates the whole
pool — no shuffle or random choice is consulted in this branch. -/
theorem low_score_branch_deterministic
    (pp : String → ℚ) (o1 o2 : SelectOracle) (block_type : String)
    (block_type_dict : List (String × BlockVibes)) (blocks_used : List String)
    (target_vibes : TargetVibes) (vfp : Option ℚ) (cfg : ScoringConfig)
    (hvf : o1.vfDraw = o2.vfDraw)
    (hne : block_type_dict.isEmpty = false)
    (hlow : (selector_best pp block_type block_type_dict vfp blocks_used target_vibes cfg
        o1.vfDraw).1 < cfg.low_score_threshold) :
    get_scored_block_internal pp o1 block_type block_type_dict blocks_used target_vibes
        vfp cfg =
      get_scored_block_internal pp o2 block_type block_type_dict blocks_used target_vibes
        vfp cfg ∧
    get_scored_block_internal pp o1 block_type block_type_dict blocks_used target_vibes
        vfp cfg =
      (selector_best pp block_type block_type_dict vfp blocks_used target_vibes cfg
        o1.vfDraw).2 ∧
    ∀ s ∈ selector_scores pp block_type block_type_dict vfp blocks_used target_vibes cfg
        o1.vfDraw,
      s.1 ≤ (selector_best pp block_type block_type_dict vfp blocks_used target_vibes cfg
        o1.vfDraw).1 := by
  have h1 := get_scored_block_internal_low pp o1 block_type block_type_dict blocks_used
    target_vibes vfp cfg hne hlow
  have h2 := get_scored_block_internal_low pp o2 block_type block_type_dict blocks_used
    target_vibes vfp cfg hne (by rw [← hvf]; exact hlow)
  refine ⟨?_, h1, selector_best_is_max pp block_type block_type_dict vfp blocks_used
    target_vibes cfg o1.vfDraw⟩
  rw [h1, h2, hvf]

end FantasyNameGen

namespace FantasyNameGen

/-- A block whose five axis values are all 1. -/
def onesVibes : BlockVibes := ⟨some 1, some 1, some 1, some 1, some 1, none⟩

/-- A block whose five axis values are all 10. -/
def tensVibes : BlockVibes := ⟨some 10, some 10, some 10, some 10, some 10, none⟩

/-- A target pinning every axis to the range `[1, 1]`. -/
def targetOnes : TargetVibes :=
  ⟨some (1, 1), some (1, 1), some (1, 1), some (1, 1), some (1, 1)⟩

/-- A configuration weighting vibe only and selecting from the top-1 pool. -/
def vibeOnlyTop1Config : ScoringConfig :=
  { weight_vibe := 1, weight_compatibility := 0, top_n_candidates := 1 }

/-- One concrete run of the random draws: identity shuffles, first-element
choice. -/
def oracleId : SelectOracle := ⟨true, id, id, fun l => l.headD ""⟩

/-- Another concrete run: `random.shuffle` reversed the candidate list. -/
def oracleRev : SelectOracle := ⟨true, List.reverse, id, fun l => l.headD ""⟩

theorem svm_ones : score_vibe_match (some onesVibes) targetOnes = 100 := by
  norm_num [score_vibe_match, vibe_axis_distance, onesVibes, targetOnes]

theorem svm_tens : score_vibe_match (some tensVibes) targetOnes = 0 := by
  norm_num [score_vibe_match, vibe_axis_distance, tensVibes, targetOnes, abs_of_nonneg]

theorem cscores_cex :
    candidate_scores zeroPairPenalties [("a", onesVibes), ("b", tensVibes)] []
      targetOnes vibeOnlyTop1Config = [(100, "a"), (0, "b")] := by
  unfold candidate_scores
  simp only [List.map_cons, List.map_nil, svm_ones, svm_tens]
  norm_num [vibeOnlyTop1Config, (by decide : "".data.isEmpty = true)]

theorem hinit_cex :
    initial_candidates "prefix" [("a", onesVibes), ("b", tensVibes)] none true
      = [("a", onesVibes), ("b", tensVibes)] := by
  unfold initial_candidates
  rw [if_neg]
  simp

theorem hscores_cex :
    selector_scores zeroPairPenalties "prefix" [("a", onesVibes), ("b", tensVibes)] none []
      targetOnes vibeOnlyTop1Config true = [(100, "a"), (0, "b")] := by
  unfold selector_scores
  rw [hinit_cex, cscores_cex]

theorem hsorted_cex :
    selector_sorted zeroPairPenalties "prefix" [("a", onesVibes), ("b", tensVibes)] none []
      targetOnes vibeOnlyTop1Config true = [(100, "a"), (0, "b")] := by
  unfold selector_sorted
  rw [hscores_cex]
  simp only [List.insertionSort, List.orderedInsert]
  rw [if_pos (by norm_num [scoreGe])]

theorem hbest_cex :
    selector_best zeroPairPenalties "prefix" [("a", onesVibes), ("b", tensVibes)] none []
      targetOnes vibeOnlyTop1Config true = (100, "a") := by
  unfold selector_best
  rw [hsorted_cex]
  rfl

/-- Claim C2, counterexample: for the prefix role the whole sorted
candidate list is shuffled before the top-N slice is taken, so the
returned fragment need not be one of the top `min(topNCandidates,
poolSize)` candidates by combined score.  Concretely, with two candidates
scoring 100 and 0, `top_n_candidates = 1`, and a run whose shuffle
reversed the list, the selector returns the bottom-scoring `"b"` even
though the top-1 slice by score is `["a"]` and the best score 100 clears
the threshold. -/
theorem C2_counterexample :
    get_scored_block_internal zeroPairPenalties oracleRev "prefix"
        [("a", onesVibes), ("b", tensVibes)] [] targetOnes none vibeOnlyTop1Config = "b" ∧
    "b" ∉ ((selector_sorted zeroPairPenalties "prefix" [("a", onesVibes), ("b", tensVibes)]
        none [] targetOnes vibeOnlyTop1Config oracleRev.vfDraw).take
          (min vibeOnlyTop1Config.top_n_candidates
            (selector_sorted zeroPairPenalties "prefix" [("a", onesVibes), ("b", tensVibes)]
              none [] targetOnes vibeOnlyTop1Config oracleRev.vfDraw).length)).map
          Prod.snd ∧
    ¬ ((selector_best zeroPairPenalties "prefix" [("a", onesVibes), ("b", tensVibes)] none []
        targetOnes vibeOnlyTop1Config oracleRev.vfDraw).1 <
        vibeOnlyTop1Config.low_score_threshold) := by
  refine ⟨?_, ?_, ?_⟩
  · unfold get_scored_block_internal
    simp only [oracleRev, hsorted_cex, hbest_cex]
    rw [if_neg (by norm_num [vibeOnlyTop1Config])]
    rfl
  · show ¬ _
    rw [show oracleRev.vfDraw = true from rfl, hsorted_cex]
    decide
  · rw [show oracleRev.vfDraw = true from rfl, hbest_cex]
    norm_num [vibeOnlyTop1Config]

/-- Claim C2 (amended): for the middle and suffix roles (every role other
than prefix), whenever the best combined score is at or above the
low-score threshold, the returned fragment is one of the top
`min(topNCandidates, poolSize)` candidates ranked by combined score (the
slice is shuffled and one element picked at random, so — over the random
draws — every member of that slice is reachable); for the prefix role the
whole sorted list is shuffled before slicing, so the slice is a random
subset rather than the top-ranked candidates. -/
theorem scored_block_in_top_n
    (pp : String → ℚ) (o : SelectOracle) (block_type : String)
    (block_type_dict : List (String × BlockVibes)) (blocks_used : List String)
    (target_vibes : TargetVibes) (vfp : Option ℚ) (cfg : ScoringConfig)
    (hbt : ¬ (block_type = "prefix"))
    (hne : block_type_dict.isEmpty = false)
    (htop : 1 ≤ cfg.top_n_candidates)
    (hlow : ¬ ((selector_best pp block_type block_type_dict vfp blocks_used target_vibes cfg
        o.vfDraw).1 < cfg.low_score_threshold))
    (hshuffle : ∀ l, (o.shuffleTop l).Perm l)
    (hchoice : ∀ l, l ≠ [] → o.choice l ∈ l) :
    get_scored_block_internal pp o block_type block_type_dict blocks_used target_vibes
        vfp cfg ∈
      ((selector_sorted pp block_type block_type_dict vfp blocks_used target_vibes cfg
        o.vfDraw).take
          (min cfg.top_n_candidates
            (selector_sorted pp block_type block_type_dict vfp blocks_used target_vibes cfg
              o.vfDraw).length)).map Prod.snd := by
  have hsortedlen : 0 < (selector_sorted pp block_type block_type_dict vfp blocks_used
      target_vibes cfg o.vfDraw).length := by
    unfold selector_sorted
    rw [(List.perm_insertionSort scoreGe _).length_eq]
    exact List.length_pos.2 (ne_nil_of_isEmpty_false (selector_scores_ne_empty hne))
  have htopne : ((selector_sorted pp block_type block_type_dict vfp blocks_used target_vibes
      cfg o.vfDraw).take
        (min cfg.top_n_candidates
          (selector_sorted pp block_type block_type_dict vfp blocks_used target_vibes cfg
            o.vfDraw).length)).map Prod.snd ≠ [] := by
    intro hcontra
    have hlen := congrArg List.length hcontra
    simp only [List.length_map, List.length_take, List.length_nil] at hlen
    omega
  unfold get_scored_block_internal
  simp only [hne, initial_candidates_ne_empty hne, selector_scores_ne_empty hne,
    Bool.false_eq_true, if_false]
  rw [if_neg hbt, if_neg hlow]
  have hperm := hshuffle (((selector_sorted pp block_type block_type_dict vfp blocks_used
    target_vibes cfg o.vfDraw).take
      (min cfg.top_n_candidates
        (selector_sorted pp block_type block_type_dict vfp blocks_used target_vibes cfg
          o.vfDraw).length)).map Prod.snd)
  have hstne : o.shuffleTop (((selector_sorted pp block_type block_type_dict vfp blocks_used
      target_vibes cfg o.vfDraw).take
        (min cfg.top_n_candidates
          (selector_sorted pp block_type block_type_dict vfp blocks_used target_vibes cfg
            o.vfDraw).length)).map Prod.snd) ≠ [] := by
    intro hcontra
    rw [hcontra] at hperm
    exact htopne hperm.symm.eq_nil
  rw [if_neg (by simpa [List.isEmpty_iff] using hstne)]
  exact hperm.mem_iff.1 (hchoice _ hstne)

theorem cscores_single :
    candidate_scores zeroPairPenalties [("a", onesVibes)] [] targetOnes
      defaultScoringConfig = [(100, "a")] := by
  unfold candidate_scores
  simp only [List.map_cons, List.map_nil, svm_ones]
  norm_num [defaultScoringConfig, (by decide : "".data.isEmpty = true)]

theorem hbest_single :
    selector_best zeroPairPenalties "middle" [("a", onesVibes)] none [] targetOnes
      defaultScoringConfig true = (100, "a") := by
  unfold selector_best selector_sorted selector_scores
  rw [show initial_candidates "middle" [("a", onesVibes)] none true
      = [("a", onesVibes)] from rfl, cscores_single]
  rfl

/-- Witness for `scored_block_in_top_n`: a singleton middle pool scoring
100 with the default configuration. -/
theorem scored_block_in_top_n_witness :
    get_scored_block_internal zeroPairPenalties oracleId "middle" [("a", onesVibes)] []
        targetOnes none defaultScoringConfig ∈
      ((selector_sorted zeroPairPenalties "middle" [("a", onesVibes)] none [] targetOnes
        defaultScoringConfig oracleId.vfDraw).take
          (min defaultScoringConfig.top_n_candidates
            (selector_sorted zeroPairPenalties "middle" [("a", onesVibes)] none [] targetOnes
              defaultScoringConfig oracleId.vfDraw).length)).map Prod.snd :=
  scored_block_in_top_n zeroPairPenalties oracleId "middle" [("a", onesVibes)] []
    targetOnes none defaultScoringConfig (by decide) rfl (by norm_num [defaultScoringConfig])
    (by rw [show oracleId.vfDraw = true from rfl, hbest_single]
        norm_num [defaultScoringConfig])
    (fun l => by simp [oracleId])
    (fun l hl => by
      cases l with
      | nil => exact absurd rfl hl
      | cons a t => simp [oracleId])

/-- Witness for `low_score_branch_deterministic`: a singleton middle pool
scoring 0 (all axes maximally off target) under two different runs. -/
theorem low_score_branch_deterministic_witness :
    get_scored_block_internal zeroPairPenalties oracleId "middle" [("b", tensVibes)] []
        targetOnes none vibeOnlyTop1Config =
      get_scored_block_internal zeroPairPenalties oracleRev "middle" [("b", tensVibes)] []
        targetOnes none vibeOnlyTop1Config ∧
    get_scored_block_internal zeroPairPenalties oracleId "middle" [("b", tensVibes)] []
        targetOnes none vibeOnlyTop1Config =
      (selector_best zeroPairPenalties "middle" [("b", tensVibes)] none [] targetOnes
        vibeOnlyTop1Config oracleId.vfDraw).2 ∧
    ∀ s ∈ selector_scores zeroPairPenalties "middle" [("b", tensVibes)] none [] targetOnes
        vibeOnlyTop1Config oracleId.vfDraw,
      s.1 ≤ (selector_best zeroPairPenalties "middle" [("b", tensVibes)] none [] targetOnes
        vibeOnlyTop1Config oracleId.vfDraw).1 :=
  low_score_branch_deterministic zeroPairPenalties oracleId oracleRev "middle"
    [("b", tensVibes)] [] targetOnes none vibeOnlyTop1Config rfl rfl
    (by
      have hb : selector_best zeroPairPenalties "middle" [("b", tensVibes)] none []
          targetOnes vibeOnlyTop1Config true = (0, "b") := by
        unfold selector_best selector_sorted selector_scores
        rw [show initial_candidates "middle" [("b", tensVibes)] none true
            = [("b", tensVibes)] from rfl]
        unfold candidate_scores
        simp only [List.map_cons, List.map_nil, svm_tens]
        norm_num [vibeOnlyTop1Config, (by decide : "".data.isEmpty = true),
          List.insertionSort, List.orderedInsert]
      rw [show oracleId.vfDraw = true from rfl, hb]
      norm_num [vibeOnlyTop1Config])

end FantasyNameGen

namespace FantasyNameGen

/-! `generator.py`: configuration, block-count selection, and the
`generate_fantasy_name` pipeline.  The slot selectors (which call the
global `PatternBlocks` instance), the block-count draws, and the
post-processing passes are oracle parameters; `Except.error e` models a
Python exception named `e` escaping that step, `Except.ok` a normal
return (which may still be an `"Err…"` sentinel string). -/

/-- `FantasyNameConfig` from generator.py with its `__init__` defaults. -/
structure FantasyNameConfig where
  theme : String := "default"
  good_evil : Option (ℚ × ℚ) := some (1, 10)
  elegant_rough : Option (ℚ × ℚ) := some (1, 10)
  common_exotic : Option (ℚ × ℚ) := some (1, 10)
  weak_powerful : Option (ℚ × ℚ) := some (1, 10)
  fem_masc : Option (ℚ × ℚ) := some (1, 10)
  force_block_counts : Option (List Int) := some [2]
  vowel_first_prefix : Option ℚ := some 0.2
  special_features : ℚ := 0.2
  max_special_features : Nat := 1
  allow_apostrophes : Bool := false
  allow_hyphens : Bool := false
  allow_spaces : Bool := false
  character_modifications : ℚ := 0.2
  max_modifications : Nat := 1
  allow_diacritics : Bool := true
  allow_ligatures : Bool := true
  scoring_config : ScoringConfig := {}
  blocks_used : List String := []

/-- `FantasyNameConfig()` with all defaults. -/
def defaultFantasyNameConfig : FantasyNameConfig := {}

/-- The `Union[int, List[int], Tuple[int, ...]]` argument of
`set_force_block_count`. -/
inductive BlockCountArg
  | int (n : Int)
  | list (l : List Int)

/-- `FantasyNameConfig.set_force_block_count`: a single integer must lie in
`[2, 3]`; a list must be non-empty with every entry in `[2, 3]`; a
`ValueError` is modelled as `Except.error` with the raise message. -/
def set_force_block_count (config : FantasyNameConfig) :
    BlockCountArg → Except String FantasyNameConfig
  | .int n =>
    if 2 ≤ n ∧ n ≤ 3 then .ok { config with force_block_counts := some [n] }
    else .error "Forced block count must be between 2 and 3"
  | .list l =>
    if l.isEmpty then .error "Block count list cannot be empty"
    else if l.all (fun c => decide (2 ≤ c) && decide (c ≤ 3)) then
      .ok { config with force_block_counts := some l }
    else .error "All block counts must be integers between 2 and 3"

/-- The population of `random.choices([2, 3], weights=[5, 4], k=1)` used
when no block count is forced. -/
def unforced_block_counts : List Int := [2, 3]

/-- The weights of that draw (favoring 2-block names 5:4). -/
def unforced_block_weights : List Nat := [5, 4]

/-- `FantasyNameConfig.update_context`: append the block unless it is empty
or an `"Err…"` sentinel. -/
def update_context (blocks_used : List String) (new_block : String) : List String :=
  if ¬ new_block.data.isEmpty ∧ startsWithB new_block "Err" = false then
    blocks_used ++ [new_block]
  else blocks_used

/-- The random draws and collaborator calls of one `generate_fantasy_name`
run: `forcePick` is `random.choice(config.force_block_counts)` (which can
raise on an empty list), `weightedPick` the weighted draw over
`unforced_block_counts`, the three slot selectors return the chosen block
string for the accumulated context, and `postProcess` is the composite of
`add_special_features`, `apply_character_modifications` and
`fix_capitalization` applied to the joined name. -/
structure GenOracle where
  forcePick : List Int → Except String Int
  weightedPick : Int
  prefixSel : Except String String
  middleSel : List String → Except String String
  suffixSel : List String → Except String String
  postProcess : String → Except String String

/-- `f"ErrorGeneratingName({slot}:{msg})"`. -/
def error_name (slot msg : String) : String :=
  "ErrorGeneratingName(" ++ (slot ++ ":" ++ msg ++ ")")

/-- STEP 1 of `generate_fantasy_name`: pick from the forced list when one
is set, otherwise use the weighted draw over `[2, 3]`. -/
def chooseBlockCount (config : FantasyNameConfig) (o : GenOracle) : Except String Int :=
  match config.force_block_counts with
  | some l => o.forcePick l
  | none => .ok o.weightedPick

/-- The middle-slot stage: only 3-block names select a middle; a failed
middle aborts with a tagged name (`Sum.inl`), success extends the context
(`Sum.inr`). -/
def middle_stage (o : GenOracle) (block_count : Int) (used1 : List String) :
    Except String (String ⊕ List String) :=
  if block_count = 3 then
    match o.middleSel used1 with
    | .error e => .error e
    | .ok mid =>
      if startsWithB mid "Err" then .ok (Sum.inl (error_name "Middle" mid))
      else .ok (Sum.inr (update_context used1 mid))
  else .ok (Sum.inr used1)

/-- The body of `generate_fantasy_name`'s `try` block: select
prefix/[middle]/suffix in order, aborting with a slot-tagged name on an
`"Err…"` selector result, then join the context and post-process. -/
def generate_fantasy_name_body (config : FantasyNameConfig) (o : GenOracle) :
    Except String String :=
  match chooseBlockCount config o with
  | .error e => .error e
  | .ok block_count =>
    match o.prefixSel with
    | .error e => .error e
    | .ok pre =>
      if startsWithB pre "Err" then .ok (error_name "Prefix" pre)
      else
        match middle_stage o block_count (update_context [] pre) with
        | .error e => .error e
        | .ok (Sum.inl early) => .ok early
        | .ok (Sum.inr used2) =>
          match o.suffixSel used2 with
          | .error e => .error e
          | .ok suf =>
            if startsWithB suf "Err" then .ok (error_name "Suffix" suf)
            else o.postProcess (String.join (update_context used2 suf))

/-- `generate_fantasy_name`: the body wrapped in the catch-all
`except Exception` that converts any exception into an
`ErrorGeneratingName(Exception:…)` string. -/
def generate_fantasy_name (config : FantasyNameConfig) (o : GenOracle) : String :=
  match generate_fantasy_name_body config o with
  | .ok s => s
  | .error e => "ErrorGeneratingName(Exception:" ++ (e ++ ")")

theorem startsWithB_append {pre a : String} (h : pre.data <+: a.data) (b : String) :
    startsWithB (a ++ b) pre = true := by
  unfold startsWithB
  rw [String.data_append]
  exact List.isPrefixOf_iff_prefix.2 (h.trans (List.prefix_append _ _))

end FantasyNameGen

namespace FantasyNameGen

/-- Claim C6, counterexample: a block count of 4 is rejected both as a
single integer and as a list entry (`ValueError`), and 4 is not in the
population of the unforced weighted draw — the engine supports only 2 and
3 total blocks. -/
theorem C6_counterexample :
    set_force_block_count defaultFantasyNameConfig (BlockCountArg.int 4)
      = Except.error "Forced block count must be between 2 and 3" ∧
    set_force_block_count defaultFantasyNameConfig (BlockCountArg.list [4])
      = Except.error "All block counts must be integers between 2 and 3" ∧
    (4 : Int) ∉ unforced_block_counts := by
  refine ⟨rfl, rfl, by decide⟩

/-- Claim C6 (amended): the engine supports total block counts 2 and 3
only: a forced request succeeds exactly when it is a single count in
`[2, 3]` or a non-empty list of counts in `[2, 3]`, and when no count is
forced the total is drawn from the weighted choice over `{2, 3}` with
weights 5:4 (favoring shorter names). -/
theorem set_force_block_count_ok_iff (config : FantasyNameConfig) (arg : BlockCountArg) :
    ((∃ c2, set_force_block_count config arg = .ok c2) ↔
      (match arg with
       | .int n => 2 ≤ n ∧ n ≤ 3
       | .list l => l ≠ [] ∧ ∀ c ∈ l, 2 ≤ c ∧ c ≤ 3)) ∧
    unforced_block_counts = [2, 3] ∧ unforced_block_weights = [5, 4] := by
  refine ⟨?_, rfl, rfl⟩
  cases arg with
  | int n =>
    simp only [set_force_block_count]
    split_ifs with h
    · exact ⟨fun _ => h, fun _ => ⟨_, rfl⟩⟩
    · constructor
      · rintro ⟨c2, hc2⟩
        cases hc2
      · intro hn
        exact absurd hn h
  | list l =>
    simp only [set_force_block_count]
    split_ifs with h1 h2
    · simp only [List.isEmpty_iff] at h1
      constructor
      · rintro ⟨c2, hc2⟩
        cases hc2
      · rintro ⟨hne, _⟩
        exact absurd h1 hne
    · simp only [List.isEmpty_iff] at h1
      simp only [List.all_eq_true, Bool.and_eq_true, decide_eq_true_eq] at h2
      exact ⟨fun _ => ⟨h1, h2⟩, fun _ => ⟨_, rfl⟩⟩
    · simp only [List.all_eq_true, Bool.and_eq_true, decide_eq_true_eq] at h2
      constructor
      · rintro ⟨c2, hc2⟩
        cases hc2
      · rintro ⟨_, hforall⟩
        exact absurd hforall h2

/-- Claim C7: whenever a slot selector returns an `"Err…"` value, the
whole generation aborts with the single tagged
`ErrorGeneratingName(<Slot>:<reason>)` string for the first failing slot
(so no partially-assembled name is ever returned), and every such tagged
value starts with `"ErrorGeneratingName("`. -/
theorem generate_aborts_on_slot_failure (config : FantasyNameConfig) (o : GenOracle)
    (bc : Int) (hbc : chooseBlockCount config o = .ok bc) :
    (∀ p, o.prefixSel = .ok p → startsWithB p "Err" = true →
      generate_fantasy_name config o = error_name "Prefix" p) ∧
    (∀ p mid, o.prefixSel = .ok p → startsWithB p "Err" = false → bc = 3 →
      o.middleSel (update_context [] p) = .ok mid → startsWithB mid "Err" = true →
      generate_fantasy_name config o = error_name "Middle" mid) ∧
    (∀ p used2 suf, o.prefixSel = .ok p → startsWithB p "Err" = false →
      middle_stage o bc (update_context [] p) = .ok (Sum.inr used2) →
      o.suffixSel used2 = .ok suf → startsWithB suf "Err" = true →
      generate_fantasy_name config o = error_name "Suffix" suf) ∧
    (∀ slot msg, startsWithB (error_name slot msg) "ErrorGeneratingName(" = true) := by
  refine ⟨?_, ?_, ?_, ?_⟩
  · intro p hp herr
    unfold generate_fantasy_name generate_fantasy_name_body
    rw [hbc, hp]
    simp [herr]
  · intro p mid hp herr hbc3 hmid hmerr
    unfold generate_fantasy_name generate_fantasy_name_body middle_stage
    rw [hbc, hp]
    simp [herr, hbc3, hmid, hmerr]
  · intro p used2 suf hp herr hmid hsuf hserr
    unfold generate_fantasy_name generate_fantasy_name_body
    rw [hbc, hp]
    simp [herr, hmid, hsuf, hserr]
  · intro slot msg
    exact startsWithB_append (List.prefix_refl _) _

/-- A run whose middle-slot selection fails with a scoring-failure
sentinel (prefix `"Kor"` succeeded, 3-block structure forced). -/
def genOracleMidFail : GenOracle :=
  ⟨fun l => .ok (l.headD 2), 2, .ok "Kor",
    fun _ => .ok "ErrMiddleScoringFailed", fun _ => .ok "dor", fun s => .ok s⟩

/-- A configuration forcing 3-block names. -/
def threeBlockConfig : FantasyNameConfig := { force_block_counts := some [3] }

/-- Witness for `generate_aborts_on_slot_failure`: the failing middle slot
aborts the whole name with the tagged middle error. -/
theorem generate_aborts_on_slot_failure_witness :
    generate_fantasy_name threeBlockConfig genOracleMidFail =
      error_name "Middle" "ErrMiddleScoringFailed" :=
  (generate_aborts_on_slot_failure threeBlockConfig genOracleMidFail 3 rfl).2.1
    "Kor" "ErrMiddleScoringFailed" rfl (by decide) rfl rfl (by decide)

/-- Claim C10: `generate_fantasy_name` is total — it never propagates an
exception: either it returns the `try`-body's normal result, or the body
raised (`Except.error`) and the caller receives the
`ErrorGeneratingName(Exception:…)` string, which begins with
`"ErrorGeneratingName("`. -/
theorem generate_fantasy_name_total (config : FantasyNameConfig) (o : GenOracle) :
    generate_fantasy_name_body config o = .ok (generate_fantasy_name config o) ∨
    (∃ e, generate_fantasy_name_body config o = .error e ∧
      generate_fantasy_name config o = "ErrorGeneratingName(Exception:" ++ (e ++ ")") ∧
      startsWithB (generate_fantasy_name config o) "ErrorGeneratingName(" = true) := by
  unfold generate_fantasy_name
  cases h : generate_fantasy_name_body config o with
  | ok s => exact Or.inl rfl
  | error e =>
    refine Or.inr ⟨e, rfl, rfl, ?_⟩
    exact startsWithB_append (by decide) _

end FantasyNameGen

namespace FantasyNameGen

/-! `add_special_features` and `apply_character_modifications` from
generator.py, over `List Char`.  The two probability gates
(`random.random() > probability`) are Bool parameters (`true` = the roll
passed and the pass runs); `random.choice` over diacritic variants is an
oracle. -/

/-- The special characters `"'- "` (apostrophe, hyphen, space). -/
def specialChars : List Char := "'- ".toList

/-- Membership in `"'- "`. -/
def isSpecialChar (c : Char) : Bool := specialChars.contains c

/-- The apostrophe character (head of `"'- "`). -/
def apostropheChar : Char := specialChars.headD ' '

/-- The hyphen character. -/
def hyphenChar : Char := '-'

/-- Block-boundary positions: cumulative lengths of all context blocks but
the last. -/
def block_boundaries (blocks : List String) : List Nat :=
  ((blocks.dropLast.map String.length).scanl (· + ·) 0).tail

/-- Apostrophe suitability score for index `i` (−999 start when
apostrophes are disabled; boundary bonus; after-consonant,
after-liquid/nasal and before-vowel bonuses). -/
def apostrophe_score (cfg : FantasyNameConfig) (name : List Char) (boundaries : List Nat)
    (i : Nat) : Int :=
  (if cfg.allow_apostrophes then 0 else -999) +
  (if boundaries.contains i then 5 else 0) +
  (if !is_vowel (name.getD (i - 1) ' ') then 4 else 0) +
  (if "lrntds".toList.contains ((name.getD (i - 1) ' ').toLower) then 2 else 0) +
  (if is_vowel (name.getD i ' ') then 3 else 0)

/-- Hyphen suitability score for index `i` (boundary bonus,
syllable-boundary heuristics, middle-of-name bonus). -/
def hyphen_score (cfg : FantasyNameConfig) (name : List Char) (boundaries : List Nat)
    (i : Nat) : Int :=
  (if cfg.allow_hyphens then 0 else -999) +
  (if boundaries.contains i then 7 else 0) +
  (if decide (1 < i) && !is_vowel (name.getD (i - 1) ' ') &&
      is_vowel (name.getD (i - 2) ' ') then 3 else 0) +
  (if decide (i < name.length - 1) && !is_vowel (name.getD i ' ') &&
      is_vowel (name.getD (i + 1) ' ') then 3 else 0) +
  (if (decide (1 < i) && !is_vowel (name.getD (i - 1) ' ') &&
        is_vowel (name.getD (i - 2) ' ')) &&
      (decide (i < name.length - 1) && !is_vowel (name.getD i ' ') &&
        is_vowel (name.getD (i + 1) ' ')) then 2 else 0) +
  (if ((i : Int) - ((name.length : Int) - (i : Int))).natAbs ≤ 3 then 3 else 0)

/-- Space suitability score for index `i` (boundary bonus, balanced-segment
bonus, after-consonant bonus, vowel-consonant break malus). -/
def space_score (cfg : FantasyNameConfig) (name : List Char) (boundaries : List Nat)
    (i : Nat) : Int :=
  (if cfg.allow_spaces then 0 else -999) +
  (if boundaries.contains i then 6 else 0) +
  (if decide (3 ≤ i) && decide (3 ≤ name.length - i) then 5 else 0) +
  (if decide (4 ≤ i) && !is_vowel (name.getD (i - 1) ' ') then 2 else 0) +
  (if is_vowel (name.getD (i - 1) ' ') && !is_vowel (name.getD i ' ') then -4 else 0)

/-- `max(scores.items(), key=lambda x: x[1])` over the dict in its
`'`, `-`, ` ` iteration order: the first entry attaining the maximum
wins. -/
def bestFeature (sA sH sS : Int) : Char × Int :=
  (if sS > (if sH > sA then sH else sA) then ' '
    else if sH > sA then hyphenChar else apostropheChar,
   if sS > (if sH > sA then sH else sA) then sS
    else if sH > sA then sH else sA)

/-- STEP 2 of `add_special_features` for one interior index: skip indices
at or next to an existing special character; otherwise keep the
best-scoring feature when its score exceeds 3. -/
def scoreFeatureAt (cfg : FantasyNameConfig) (name : List Char) (boundaries : List Nat)
    (i : Nat) : Option (Nat × Char × Int) :=
  if isSpecialChar (name.getD i ' ') || isSpecialChar (name.getD (i - 1) ' ') ||
      (decide (i + 1 < name.length) && isSpecialChar (name.getD (i + 1) ' ')) then none
  else
    if (bestFeature (apostrophe_score cfg name boundaries i)
        (hyphen_score cfg name boundaries i) (space_score cfg name boundaries i)).2 > 3 then
      some (i, (bestFeature (apostrophe_score cfg name boundaries i)
        (hyphen_score cfg name boundaries i) (space_score cfg name boundaries i)).1,
        (bestFeature (apostrophe_score cfg name boundaries i)
          (hyphen_score cfg name boundaries i) (space_score cfg name boundaries i)).2)
    else none

/-- All candidate insertion points (`range(1, len(name) - 1)`). -/
def find_breakpoints (cfg : FantasyNameConfig) (name : List Char) :
    List (Nat × Char × Int) :=
  (List.range' 1 (name.length - 1 - 1)).filterMap
    (scoreFeatureAt cfg name (block_boundaries cfg.blocks_used))

/-- Descending-by-score order of the breakpoint sort. -/
def bpGe (a b : Nat × Char × Int) : Prop := b.2.2 ≤ a.2.2

instance : DecidableRel bpGe := fun a b => inferInstanceAs (Decidable (b.2.2 ≤ a.2.2))

instance : IsTotal (Nat × Char × Int) bpGe := ⟨fun a b => le_total b.2.2 a.2.2⟩

instance : IsTrans (Nat × Char × Int) bpGe := ⟨fun _ _ _ hab hbc => le_trans hbc hab⟩

/-- `breakpoints.sort(key=lambda x: x[2], reverse=True)` (stable). -/
def sort_breakpoints (l : List (Nat × Char × Int)) : List (Nat × Char × Int) :=
  List.insertionSort bpGe l

/-- The final cluster check before one insertion: any special character at
index `adjusted_pos − 1`, `adjusted_pos` or `adjusted_pos + 1` of the
current list. -/
def windowHasSpecial (l : List Char) (p : Nat) : Bool :=
  ((l.drop (p - 1)).take (p + 2 - (p - 1))).any isSpecialChar

/-- Python `list.insert` (clamping the index to the list length). -/
def pyInsert (l : List Char) (n : Nat) (c : Char) : List Char :=
  l.take n ++ c :: l.drop n

/-- STEP 3 of `add_special_features`: walk the sorted breakpoints, adjust
each original position by the number of earlier insertions before it, skip
positions that would touch a special character, and insert up to
`max_special_features` characters. -/
def insert_features (max_features : Nat) :
    List (Nat × Char × Int) → List Char → Nat → List Nat → List Char
  | [], result, _, _ => result
  | (orig_pos, c, _) :: rest, result, added, inserted =>
    if max_features ≤ added then result
    else
      let adjusted := orig_pos + (inserted.filter (fun idx => decide (idx < orig_pos))).length
      if windowHasSpecial result adjusted then
        insert_features max_features rest result added inserted
      else
        insert_features max_features rest (pyInsert result adjusted c) (added + 1)
          (inserted.insert adjusted)

/-- `add_special_features` from generator.py.  `gate = false` models a
failed probability roll. -/
def add_special_features (cfg : FantasyNameConfig) (gate : Bool) (name : List Char) :
    List Char :=
  if cfg.special_features ≤ 0 ∨ cfg.max_special_features = 0 then name
  else if ¬ (cfg.allow_apostrophes || cfg.allow_hyphens || cfg.allow_spaces) = true then name
  else if ¬ gate = true then name
  else insert_features cfg.max_special_features
    (sort_breakpoints (find_breakpoints cfg name)) name 0 []

/-- `diacritic_map` from `apply_character_modifications`. -/
def diacritic_map (c : Char) : Option (List Char) :=
  if c = 'a' then some ['á', 'à', 'ä', 'â', 'ã']
  else if c = 'e' then some ['é', 'è', 'ë', 'ê']
  else if c = 'i' then some ['í', 'ì', 'ï', 'î']
  else if c = 'o' then some ['ó', 'ò', 'ö', 'ô', 'õ']
  else if c = 'u' then some ['ú', 'ù', 'ü', 'û']
  else if c = 'y' then some ['ý', 'ÿ']
  else if c = 'A' then some ['Á', 'À', 'Ä', 'Â', 'Ã']
  else if c = 'E' then some ['É', 'È', 'Ë', 'Ê']
  else if c = 'I' then some ['Í', 'Ì', 'Ï', 'Î']
  else if c = 'O' then some ['Ó', 'Ò', 'Ö', 'Ô', 'Õ']
  else if c = 'U' then some ['Ú', 'Ù', 'Ü', 'Û']
  else if c = 'Y' then some ['Ý', 'Ÿ']
  else none

/-- `ligature_map` in its Python dict insertion order. -/
def ligature_map : List (List Char × Char) :=
  [("ae".toList, 'æ'), ("oe".toList, 'œ'), ("th".toList, 'þ'), ("dh".toList, 'ð'),
   ("ss".toList, 'ß'), ("AE".toList, 'Æ'), ("OE".toList, 'Œ'), ("Ae".toList, 'Æ'),
   ("Oe".toList, 'Œ'), ("Th".toList, 'Þ'), ("Dh".toList, 'Ð')]

/-- The ligature replacement glyphs. -/
def ligature_glyphs : List Char := ['æ', 'œ', 'þ', 'ð', 'ß', 'Æ', 'Œ', 'Þ', 'Ð']

/-- A character produced by a ligature substitution. -/
def isGlyph (c : Char) : Bool := ligature_glyphs.contains c

/-- `ligature_map[original]` (the keys looked up always exist; the default
glyph is never reached on the opportunities the pass builds). -/
def ligature_lookup (pat : List Char) : Char :=
  ((ligature_map.find? (fun p => p.1 == pat)).map Prod.snd).getD 'æ'

/-- The protected zone: any index within one character of a special
character of the input name. -/
def isProtected (name : List Char) (j : Nat) : Bool :=
  decide (j < name.length) &&
  (List.range name.length).any (fun i =>
    isSpecialChar (name.getD i ' ') && decide (i - 1 ≤ j) && decide (j ≤ i + 1))

/-- A modification opportunity `(pos, length, type, original, score)`. -/
structure ModOpp where
  pos : Nat
  len : Nat
  isLigature : Bool
  original : List Char
  score : ℚ

/-- Positional score of one diacritic opportunity. -/
def diacritic_score (name : List Char) (i : Nat) : ℚ :=
  5 - (if i = 0 then 1 else 0) - (if i = name.length - 1 then 1 / 2 else 0) +
  (if decide (0 < i) && !is_vowel (name.getD (i - 1) ' ') then 1 else 0)

/-- Diacritic opportunities: unprotected vowel positions, scored by
position. -/
def diacritic_opportunities (cfg : FantasyNameConfig) (name : List Char) : List ModOpp :=
  if cfg.allow_diacritics then
    (List.range name.length).filterMap (fun i =>
      if isProtected name i || (diacritic_map (name.getD i ' ')).isNone then none
      else some ⟨i, 1, false, [name.getD i ' '], diacritic_score name i⟩)
  else []

/-- `pat` matches `name` at index `i`. -/
def matchesAt (name pat : List Char) (i : Nat) : Bool :=
  ((name.drop i).take pat.length) == pat

/-- Python `name.find(pattern, start)`: least matching index ≥ `start`. -/
def str_find (name pat : List Char) (start : Nat) : Option Nat :=
  (List.range (name.length + 1)).find? (fun i => decide (start ≤ i) && matchesAt name pat i)

/-- Positional score of one ligature opportunity (base 7, higher than
diacritics). -/
def ligature_score (name : List Char) (found patLen : Nat) : ℚ :=
  7 - (if found = 0 then 2 else 0) - (if name.length - 1 ≤ found + patLen then 1 else 0)

/-- The `while` scan of one ligature pattern: record unprotected,
uncovered occurrences (advancing by the pattern length) and step past
protected/covered ones.  `fuel` bounds the loop (`name.length + 1`
iterations suffice since the start index strictly increases). -/
def scan_ligature (name pat : List Char) :
    Nat → Nat → List Nat → (List ModOpp × List Nat)
  | 0, _, covered => ([], covered)
  | fuel + 1, start, covered =>
    if name.length ≤ start then ([], covered)
    else
      match str_find name pat start with
      | none => ([], covered)
      | some found =>
        if (List.range' found pat.length).any (fun j => isProtected name j) ||
            (List.range' found pat.length).any (fun j => covered.contains j) then
          scan_ligature name pat fuel (found + 1) covered
        else
          (⟨found, pat.length, true, pat, ligature_score name found pat.length⟩ ::
            (scan_ligature name pat fuel (found + pat.length)
              (covered ++ List.range' found pat.length)).1,
           (scan_ligature name pat fuel (found + pat.length)
             (covered ++ List.range' found pat.length)).2)

/-- `sorted(ligature_map.keys(), key=len, reverse=True)` (stable; all keys
have length 2, so this is the dict order). -/
def ligature_patterns_sorted : List (List Char) :=
  List.insertionSort (fun a b => b.length ≤ a.length) (ligature_map.map Prod.fst)

/-- Scan every pattern in order, threading the `already_covered` set. -/
def scan_all_ligatures (name : List Char) : List (List Char) → List Nat → List ModOpp
  | [], _ => []
  | pat :: rest, covered =>
    let r := scan_ligature name pat (name.length + 1) 0 covered
    r.1 ++ scan_all_ligatures name rest r.2

/-- Ligature opportunities over all patterns. -/
def ligature_opportunities (cfg : FantasyNameConfig) (name : List Char) : List ModOpp :=
  if cfg.allow_ligatures then scan_all_ligatures name ligature_patterns_sorted [] else []

/-- Descending-by-score order of the opportunity sort. -/
def oppGe (a b : ModOpp) : Prop := b.score ≤ a.score

instance : DecidableRel oppGe := fun a b => inferInstanceAs (Decidable (b.score ≤ a.score))

instance : IsTotal ModOpp oppGe := ⟨fun a b => le_total b.score a.score⟩

instance : IsTrans ModOpp oppGe := ⟨fun _ _ _ hab hbc => le_trans hbc hab⟩

/-- Diacritic then ligature opportunities, sorted by score descending
(stable). -/
def sorted_opportunities (cfg : FantasyNameConfig) (name : List Char) : List ModOpp :=
  List.insertionSort oppGe
    (diacritic_opportunities cfg name ++ ligature_opportunities cfg name)

/-- The random draws of one `apply_character_modifications` run. -/
structure ModOracle where
  gate : Bool
  pickDiacritic : Char → List Char → Char

/-- STEP 3 of `apply_character_modifications`: apply opportunities in
score order, skipping overlaps with already-modified indices, up to
`max_modifications`; a ligature writes its glyph at the start of its span
and blanks the tail (`''` entries, `none` here). -/
def apply_mods (o : ModOracle) (max_mods : Nat) :
    List ModOpp → List (Option Char) → Nat → List Nat → List (Option Char)
  | [], result, _, _ => result
  | opp :: rest, result, made, modified =>
    if max_mods ≤ made then result
    else
      if (List.range' opp.pos opp.len).any (fun j => modified.contains j) then
        apply_mods o max_mods rest result made modified
      else
        apply_mods o max_mods rest
          (if opp.isLigature then
            (List.range' (opp.pos + 1) (opp.len - 1)).foldl
              (fun acc j => acc.set j none)
              (result.set opp.pos (some (ligature_lookup opp.original)))
          else
            result.set opp.pos
              (some (o.pickDiacritic (opp.original.headD ' ')
                ((diacritic_map (opp.original.headD ' ')).getD []))))
          (made + 1) (modified ++ List.range' opp.pos opp.len)

/-- `apply_character_modifications` from generator.py: the final
`''.join(filter(None, result))` is `reduceOption`. -/
def apply_character_modifications (cfg : FantasyNameConfig) (o : ModOracle)
    (name : List Char) : List Char :=
  if cfg.character_modifications ≤ 0 ∨ cfg.max_modifications = 0 then name
  else if ¬ (cfg.allow_diacritics || cfg.allow_ligatures) = true then name
  else if ¬ o.gate = true then name
  else
    (apply_mods o cfg.max_modifications (sorted_opportunities cfg name)
      (name.map some) 0 []).reduceOption

end FantasyNameGen

namespace FantasyNameGen

/-- No two adjacent special characters. -/
def RnoAdj (a b : Char) : Prop := ¬ (isSpecialChar a = true ∧ isSpecialChar b = true)

instance : DecidableRel RnoAdj := fun _ _ => inferInstanceAs (Decidable (¬ _))

/-- No two adjacent specials, and no special adjacent to a ligature
glyph. -/
def Rsafe (a b : Char) : Prop :=
  ¬ (isSpecialChar a = true ∧ isSpecialChar b = true) ∧
  ¬ (isSpecialChar a = true ∧ isGlyph b = true) ∧
  ¬ (isGlyph a = true ∧ isSpecialChar b = true)

instance : DecidableRel Rsafe := fun _ _ => inferInstanceAs (Decidable (_ ∧ _ ∧ _))

theorem not_special_of_window {l : List Char} {p j : Nat}
    (hw : windowHasSpecial l p = false)
    (h1 : p - 1 ≤ j) (h2 : j ≤ p + 1) (hj : j < l.length) :
    isSpecialChar (l.getD j ' ') = false := by
  unfold windowHasSpecial at hw
  rw [List.any_eq_false] at hw
  have hj' : l[j]? = some (l.getD j ' ') := by
    rw [List.getD_eq_getElem?_getD, List.getElem?_eq_getElem hj]
    rfl
  have hget : ((l.drop (p - 1)).take (p + 2 - (p - 1)))[j - (p - 1)]? =
      some (l.getD j ' ') := by
    rw [List.getElem?_take, if_pos (by omega), List.getElem?_drop,
      show p - 1 + (j - (p - 1)) = j from by omega]
    exact hj'
  exact Bool.eq_false_iff.mpr (hw _ (List.getElem?_mem hget))

theorem pyInsert_length {l : List Char} {n : Nat} {c : Char} (h : n ≤ l.length) :
    (pyInsert l n c).length = l.length + 1 := by
  unfold pyInsert
  simp only [List.length_append, List.length_take, List.length_cons, List.length_drop]
  omega

theorem length_insert_le {a : Nat} {l : List Nat} :
    (List.insert a l).length ≤ l.length + 1 := by
  by_cases h : a ∈ l
  · rw [List.insert_of_mem h]
    omega
  · rw [List.length_insert_of_not_mem h]

/-- Inserting any character at a position whose neighborhood the
`too_close` window check cleared preserves the no-adjacent-specials
invariant. -/
theorem chain'_pyInsert {l : List Char} {p : Nat} {c : Char}
    (hp1 : 1 ≤ p) (hp2 : p < l.length)
    (hc : List.Chain' RnoAdj l)
    (hw : windowHasSpecial l p = false) :
    List.Chain' RnoAdj (pyInsert l p c) := by
  unfold pyInsert
  rw [List.chain'_append]
  refine ⟨ hc.prefix (List.take_prefix _ _), ?_, ?_⟩
  · rw [List.chain'_cons']
    refine ⟨?_, hc.suffix (List.drop_suffix _ _)⟩
    intro y hy
    rw [List.head?_drop] at hy
    have hns : isSpecialChar (l.getD p ' ') = false :=
      not_special_of_window hw (by omega) (by omega) hp2
    have hyd : l.getD p ' ' = y := by
      rw [List.getD_eq_getElem?_getD, hy]
      rfl
    rw [hyd] at hns
    intro hand
    rw [hns] at hand
    exact absurd hand.2 (by simp)
  · intro x hx y hy
    rw [List.getLast?_eq_getElem?, List.length_take, Nat.min_eq_left hp2.le,
      List.getElem?_take, if_pos (by omega)] at hx
    have hns : isSpecialChar (l.getD (p - 1) ' ') = false :=
      not_special_of_window hw (by omega) (by omega) (by omega)
    have hxd : l.getD (p - 1) ' ' = x := by
      rw [List.getD_eq_getElem?_getD, hx]
      rfl
    rw [hxd] at hns
    intro hand
    rw [hns] at hand
    exact absurd hand.1 (by simp)

/-- The insertion loop of `add_special_features` preserves the
no-adjacent-specials invariant: every breakpoint position is interior to
the original name, so the adjusted position stays two short of the grown
list, and the `too_close` re-check clears both future neighbors. -/
theorem chain'_insert_features (max_features n0 : Nat) :
    ∀ (bps : List (Nat × Char × Int)) (l : List Char) (added : Nat) (inserted : List Nat),
    (∀ b ∈ bps, 1 ≤ b.1 ∧ b.1 + 2 ≤ n0) →
    n0 + inserted.length ≤ l.length →
    List.Chain' RnoAdj l →
    List.Chain' RnoAdj (insert_features max_features bps l added inserted)
  | [], l, added, inserted => fun _ _ hc => hc
  | (orig, c, s) :: rest, l, added, inserted => fun hbps hlen hc => by
    unfold insert_features
    split
    · exact hc
    · have hb := hbps _ (List.mem_cons_self _ _)
      have hfil : (inserted.filter (fun idx => decide (idx < orig))).length ≤
          inserted.length := List.length_filter_le _ _
      simp only []
      split
      · exact chain'_insert_features max_features n0 rest l added inserted
          (fun b hb' => hbps b (List.mem_cons_of_mem _ hb')) hlen hc
      · rename_i hwin
        have hwin' : windowHasSpecial l
            (orig + (inserted.filter (fun idx => decide (idx < orig))).length) = false :=
          Bool.eq_false_iff.mpr hwin
        refine chain'_insert_features max_features n0 rest _ (added + 1) _
          (fun b hb' => hbps b (List.mem_cons_of_mem _ hb')) ?_ ?_
        · have h2 : (pyInsert l
              (orig + (inserted.filter (fun idx => decide (idx < orig))).length) c).length =
              l.length + 1 := pyInsert_length (by omega)
          have h3 := @length_insert_le
            (orig + (inserted.filter (fun idx => decide (idx < orig))).length)
            inserted
          omega
        · exact chain'_pyInsert (by omega) (by omega) hc hwin'

theorem ite_some_eq_some {α : Type} {C : Prop} [Decidable C] {x y : α}
    (h : (if C then some x else none) = some y) : y = x := by
  split at h
  · injection h with h
    exact h.symm
  · cases h

theorem bestFeature_special (sA sH sS : Int) :
    isSpecialChar (bestFeature sA sH sS).1 = true := by
  unfold bestFeature
  split_ifs <;> rfl

theorem scoreFeatureAt_shape {cfg : FantasyNameConfig} {name : List Char}
    {bnds : List Nat} {i : Nat} {b : Nat × Char × Int}
    (h : scoreFeatureAt cfg name bnds i = some b) :
    b.1 = i ∧ isSpecialChar b.2.1 = true := by
  unfold scoreFeatureAt at h
  split at h
  · cases h
  · have hb := ite_some_eq_some h
    subst hb
    exact ⟨rfl, bestFeature_special _ _ _⟩

theorem sorted_breakpoints_valid (cfg : FantasyNameConfig) (name : List Char) :
    ∀ b ∈ sort_breakpoints (find_breakpoints cfg name),
      (1 ≤ b.1 ∧ b.1 + 2 ≤ name.length) ∧ isSpecialChar b.2.1 = true := by
  intro b hb
  have hb' : b ∈ find_breakpoints cfg name := by
    unfold sort_breakpoints at hb
    exact (List.perm_insertionSort bpGe _).mem_iff.1 hb
  unfold find_breakpoints at hb'
  obtain ⟨i, hi, hsc⟩ := List.mem_filterMap.1 hb'
  obtain ⟨hbi, hspec⟩ := scoreFeatureAt_shape hsc
  rw [List.mem_range'_1] at hi
  exact ⟨⟨by omega, by omega⟩, hspec⟩

theorem mem_pyInsert {x c : Char} {l : List Char} {n : Nat}
    (h : x ∈ pyInsert l n c) : x = c ∨ x ∈ l := by
  unfold pyInsert at h
  rcases List.mem_append.1 h with h | h
  · exact Or.inr (List.take_subset _ _ h)
  · rcases List.mem_cons.1 h with h | h
    · exact Or.inl h
    · exact Or.inr (List.drop_subset _ _ h)

theorem mem_insert_features (max_features : Nat) :
    ∀ (bps : List (Nat × Char × Int)) (l : List Char) (added : Nat) (inserted : List Nat)
      (x : Char), x ∈ insert_features max_features bps l added inserted →
      x ∈ l ∨ ∃ b ∈ bps, x = b.2.1
  | [], l, added, inserted => fun x hx => Or.inl hx
  | (orig, c, s) :: rest, l, added, inserted => fun x hx => by
    unfold insert_features at hx
    split at hx
    · exact Or.inl hx
    · simp only [] at hx
      split at hx
      · rcases mem_insert_features max_features rest l added inserted x hx with h | ⟨b, hb, he⟩
        · exact Or.inl h
        · exact Or.inr ⟨b, List.mem_cons_of_mem _ hb, he⟩
      · rcases mem_insert_features max_features rest _ (added + 1) _ x hx with h | ⟨b, hb, he⟩
        · rcases mem_pyInsert h with h | h
          · exact Or.inr ⟨(orig, c, s), List.mem_cons_self _ _, h⟩
          · exact Or.inl h
        · exact Or.inr ⟨b, List.mem_cons_of_mem _ hb, he⟩

/-- Phase-1 invariant: `add_special_features` never creates two adjacent
special characters when the input has none. -/
theorem add_special_features_chain (cfg : FantasyNameConfig) (gate : Bool)
    (name : List Char) (h : List.Chain' RnoAdj name) :
    List.Chain' RnoAdj (add_special_features cfg gate name) := by
  unfold add_special_features
  split
  · exact h
  split
  · exact h
  split
  · exact h
  exact chain'_insert_features cfg.max_special_features name.length _ name 0 []
    (fun b hb => (sorted_breakpoints_valid cfg name b hb).1)
    (by simp) h

/-- Every character of the phase-1 output is an input character or a
special character. -/
theorem mem_add_special_features (cfg : FantasyNameConfig) (gate : Bool)
    (name : List Char) :
    ∀ x ∈ add_special_features cfg gate name, x ∈ name ∨ isSpecialChar x = true := by
  intro x hx
  unfold add_special_features at hx
  split at hx
  · exact Or.inl hx
  split at hx
  · exact Or.inl hx
  split at hx
  · exact Or.inl hx
  rcases mem_insert_features _ _ _ _ _ _ hx with h | ⟨b, hb, he⟩
  · exact Or.inl h
  · exact Or.inr (he ▸ (sorted_breakpoints_valid cfg name b hb).2)

end FantasyNameGen

namespace FantasyNameGen

theorem ligature_lookup_glyph (pat : List Char) : isGlyph (ligature_lookup pat) = true := by
  unfold ligature_lookup
  cases hf : ligature_map.find? (fun p => p.1 == pat) with
  | none => rfl
  | some p =>
    have hp := List.mem_of_find?_eq_some hf
    have hall : ∀ q ∈ ligature_map, isGlyph q.2 = true := by decide
    show isGlyph p.2 = true
    exact hall p hp

theorem glyph_not_special {c : Char} (h : isGlyph c = true) : isSpecialChar c = false := by
  unfold isGlyph at h
  have h' : c ∈ ligature_glyphs := List.mem_of_elem_eq_true h
  unfold ligature_glyphs at h'
  simp only [List.mem_cons, List.not_mem_nil, or_false] at h'
  rcases h' with rfl | rfl | rfl | rfl | rfl | rfl | rfl | rfl | rfl <;> rfl

theorem special_not_glyph {c : Char} (h : isSpecialChar c = true) : isGlyph c = false := by
  unfold isSpecialChar at h
  have h' : c ∈ specialChars := List.mem_of_elem_eq_true h
  unfold specialChars at h'
  rcases List.mem_cons.1 h' with rfl | h'
  · rfl
  rcases List.mem_cons.1 h' with rfl | h'
  · rfl
  rcases List.mem_cons.1 h' with rfl | h'
  · rfl
  cases h'

theorem diacritic_map_variants {c : Char} {vs : List Char}
    (h : diacritic_map c = some vs) :
    vs ≠ [] ∧ ∀ v ∈ vs, isSpecialChar v = false ∧ isGlyph v = false := by
  by_cases h1 : c = 'a'
  · subst h1
    rw [show diacritic_map 'a' = some ['á', 'à', 'ä', 'â', 'ã'] from rfl] at h
    injection h with h2
    subst h2
    exact ⟨by decide, by decide⟩
  by_cases h2 : c = 'e'
  · subst h2
    rw [show diacritic_map 'e' = some ['é', 'è', 'ë', 'ê'] from rfl] at h
    injection h with h2
    subst h2
    exact ⟨by decide, by decide⟩
  by_cases h3 : c = 'i'
  · subst h3
    rw [show diacritic_map 'i' = some ['í', 'ì', 'ï', 'î'] from rfl] at h
    injection h with h2
    subst h2
    exact ⟨by decide, by decide⟩
  by_cases h4 : c = 'o'
  · subst h4
    rw [show diacritic_map 'o' = some ['ó', 'ò', 'ö', 'ô', 'õ'] from rfl] at h
    injection h with h2
    subst h2
    exact ⟨by decide, by decide⟩
  by_cases h5 : c = 'u'
  · subst h5
    rw [show diacritic_map 'u' = some ['ú', 'ù', 'ü', 'û'] from rfl] at h
    injection h with h2
    subst h2
    exact ⟨by decide, by decide⟩
  by_cases h6 : c = 'y'
  · subst h6
    rw [show diacritic_map 'y' = some ['ý', 'ÿ'] from rfl] at h
    injection h with h2
    subst h2
    exact ⟨by decide, by decide⟩
  by_cases h7 : c = 'A'
  · subst h7
    rw [show diacritic_map 'A' = some ['Á', 'À', 'Ä', 'Â', 'Ã'] from rfl] at h
    injection h with h2
    subst h2
    exact ⟨by decide, by decide⟩
  by_cases h8 : c = 'E'
  · subst h8
    rw [show diacritic_map 'E' = some ['É', 'È', 'Ë', 'Ê'] from rfl] at h
    injection h with h2
    subst h2
    exact ⟨by decide, by decide⟩
  by_cases h9 : c = 'I'
  · subst h9
    rw [show diacritic_map 'I' = some ['Í', 'Ì', 'Ï', 'Î'] from rfl] at h
    injection h with h2
    subst h2
    exact ⟨by decide, by decide⟩
  by_cases h10 : c = 'O'
  · subst h10
    rw [show diacritic_map 'O' = some ['Ó', 'Ò', 'Ö', 'Ô', 'Õ'] from rfl] at h
    injection h with h2
    subst h2
    exact ⟨by decide, by decide⟩
  by_cases h11 : c = 'U'
  · subst h11
    rw [show diacritic_map 'U' = some ['Ú', 'Ù', 'Ü', 'Û'] from rfl] at h
    injection h with h2
    subst h2
    exact ⟨by decide, by decide⟩
  by_cases h12 : c = 'Y'
  · subst h12
    rw [show diacritic_map 'Y' = some ['Ý', 'Ÿ'] from rfl] at h
    injection h with h2
    subst h2
    exact ⟨by decide, by decide⟩
  rw [show diacritic_map c = none from by
    unfold diacritic_map
    simp only [h1, h2, h3, h4, h5, h6, h7, h8, h9, h10, h11, h12, if_false]] at h
  injection h

/-- The facts about an opportunity that the application loop relies on:
its span avoids the protected zone, a diacritic opportunity has length 1
and a populated variant list, a ligature opportunity has a non-empty
span. -/
def OppValid (name : List Char) (opp : ModOpp) : Prop :=
  (∀ j ∈ List.range' opp.pos opp.len, isProtected name j = false) ∧
  (opp.isLigature = false →
    opp.len = 1 ∧ (diacritic_map (opp.original.headD ' ')).isSome = true) ∧
  (opp.isLigature = true → 1 ≤ opp.len)

theorem diacritic_opps_valid (cfg : FantasyNameConfig) (name : List Char) :
    ∀ opp ∈ diacritic_opportunities cfg name, OppValid name opp := by
  intro opp hopp
  unfold diacritic_opportunities at hopp
  split at hopp
  · obtain ⟨pos, len, lig, orig, sc⟩ := opp
    obtain ⟨i, hi, hsc⟩ := List.mem_filterMap.1 hopp
    split at hsc
    · cases hsc
    · rename_i hcond
      injection hsc with h2
      injection h2 with e1 e2 e3 e4 e5
      subst e1
      subst e2
      subst e3
      subst e4
      subst e5
      simp only [Bool.or_eq_true, not_or, Bool.not_eq_true, Option.isNone_eq_false_iff] at hcond
      refine ⟨?_, ?_, ?_⟩
      · intro j hj
        rw [List.mem_range'_1] at hj
        dsimp only at hj
        have hji : j = i := by omega
        subst hji
        exact hcond.1
      · intro _
        refine ⟨rfl, ?_⟩
        simpa using hcond.2
      · intro h
        cases h
  · cases hopp

theorem scan_ligature_valid (name pat : List Char) (hpat : 1 ≤ pat.length) :
    ∀ (fuel start : Nat) (covered : List Nat),
    ∀ opp ∈ (scan_ligature name pat fuel start covered).1,
      (∀ j ∈ List.range' opp.pos opp.len, isProtected name j = false) ∧
      opp.isLigature = true ∧ 1 ≤ opp.len
  | 0, start, covered => by
    intro opp hopp
    cases hopp
  | fuel + 1, start, covered => by
    intro opp hopp
    unfold scan_ligature at hopp
    split at hopp
    · cases hopp
    · split at hopp
      · cases hopp
      · rename_i found hfind
        split at hopp
        · exact scan_ligature_valid name pat hpat fuel (found + 1) covered opp hopp
        · rename_i hcond
          simp only [Bool.or_eq_true, not_or, Bool.not_eq_true] at hcond
          rcases List.mem_cons.1 hopp with rfl | hopp'
          · refine ⟨?_, rfl, hpat⟩
            intro j hj
            have := List.any_eq_false.1 hcond.1 j hj
            exact Bool.eq_false_iff.mpr this
          · exact scan_ligature_valid name pat hpat fuel (found + pat.length) _ opp hopp'

theorem scan_all_ligatures_valid (name : List Char) :
    ∀ (pats : List (List Char)) (covered : List Nat),
    (∀ p ∈ pats, 1 ≤ p.length) →
    ∀ opp ∈ scan_all_ligatures name pats covered,
      (∀ j ∈ List.range' opp.pos opp.len, isProtected name j = false) ∧
      opp.isLigature = true ∧ 1 ≤ opp.len
  | [], covered => by
    intro _ opp hopp
    cases hopp
  | pat :: rest, covered => by
    intro hp opp hopp
    unfold scan_all_ligatures at hopp
    rcases List.mem_append.1 hopp with h | h
    · exact scan_ligature_valid name pat (hp pat (List.mem_cons_self _ _)) _ 0 covered opp h
    · exact scan_all_ligatures_valid name rest _
        (fun p hp' => hp p (List.mem_cons_of_mem _ hp')) opp h

theorem sorted_opportunities_valid (cfg : FantasyNameConfig) (name : List Char) :
    ∀ opp ∈ sorted_opportunities cfg name, OppValid name opp := by
  intro opp hopp
  unfold sorted_opportunities at hopp
  have hopp' := (List.perm_insertionSort oppGe _).mem_iff.1 hopp
  rcases List.mem_append.1 hopp' with h | h
  · exact diacritic_opps_valid cfg name opp h
  · unfold ligature_opportunities at h
    split at h
    · have hfacts := scan_all_ligatures_valid name ligature_patterns_sorted []
        (by decide) opp h
      refine ⟨hfacts.1, ?_, fun _ => hfacts.2.2⟩
      intro hfalse
      rw [hfacts.2.1] at hfalse
      cases hfalse
    · cases h

end FantasyNameGen

namespace FantasyNameGen

/-- The invariant of the modification result list: length preserved,
protected positions untouched, special characters only where the input
had them, glyphs only at unprotected positions, deletions only at
unprotected positions. -/
def ResInv (name : List Char) (res : List (Option Char)) : Prop :=
  res.length = name.length ∧
  (∀ j : Nat, isProtected name j = true → res[j]? = some (some (name.getD j ' '))) ∧
  (∀ (j : Nat) (c : Char), res[j]? = some (some c) → isSpecialChar c = true →
    name[j]? = some c) ∧
  (∀ (j : Nat) (c : Char), res[j]? = some (some c) → isGlyph c = true →
    isProtected name j = false) ∧
  (∀ j : Nat, res[j]? = some none → isProtected name j = false)

theorem isProtected_lt {name : List Char} {j : Nat} (h : isProtected name j = true) :
    j < name.length := by
  unfold isProtected at h
  rw [Bool.and_eq_true] at h
  simpa using h.1

theorem isProtected_of_special {name : List Char} {i j : Nat}
    (hi : i < name.length) (hspec : isSpecialChar (name.getD i ' ') = true)
    (hj : j < name.length) (h1 : i - 1 ≤ j) (h2 : j ≤ i + 1) :
    isProtected name j = true := by
  unfold isProtected
  rw [Bool.and_eq_true]
  refine ⟨by simpa using hj, ?_⟩
  rw [List.any_eq_true]
  refine ⟨i, List.mem_range.2 hi, ?_⟩
  rw [List.getD_eq_getElem?_getD] at hspec
  simp [hspec, h1, h2]

theorem resInv_base (name : List Char) (hng : ∀ c ∈ name, isGlyph c = false) :
    ResInv name (name.map some) := by
  refine ⟨List.length_map _ _, ?_, ?_, ?_, ?_⟩
  · intro j hp
    have hj := isProtected_lt hp
    rw [List.getElem?_map, List.getElem?_eq_getElem hj, List.getD_eq_getElem?_getD,
      List.getElem?_eq_getElem hj]
    rfl
  · intro j c hc _
    rw [List.getElem?_map] at hc
    cases hj : name[j]? with
    | none => rw [hj] at hc; cases hc
    | some a =>
      rw [hj] at hc
      injection hc with h2
  · intro j c hc hg
    rw [List.getElem?_map] at hc
    cases hj : name[j]? with
    | none => rw [hj] at hc; cases hc
    | some a =>
      rw [hj] at hc
      injection hc with h2
      injection h2 with h3
      rw [← h3] at hg
      rw [hng a (List.getElem?_mem hj)] at hg
      cases hg
  · intro j hc
    rw [List.getElem?_map] at hc
    cases hj : name[j]? with
    | none => rw [hj] at hc; cases hc
    | some a => rw [hj] at hc; injection hc with h2; cases h2

theorem getElem?_setNone_fold (res : List (Option Char)) :
    ∀ (n s j : Nat),
    ((List.range' s n).foldl (fun acc k => acc.set k none) res)[j]? =
      if s ≤ j ∧ j < s + n ∧ j < res.length then some none else res[j]?
  | 0, s, j => by
    rw [if_neg (by omega)]
    rfl
  | n + 1, s, j => by
    rw [List.range'_succ, List.foldl_cons, getElem?_setNone_fold (res.set s none) n (s + 1) j,
      List.length_set]
    by_cases h1 : s + 1 ≤ j ∧ j < s + 1 + n ∧ j < res.length
    · rw [if_pos h1, if_pos (by omega)]
    · rw [if_neg h1, List.getElem?_set]
      by_cases h2 : s = j
      · subst h2
        by_cases h3 : s < res.length
        · rw [if_pos rfl, if_pos h3, if_pos (by omega)]
        · rw [if_pos rfl, if_neg h3, if_neg (by omega), List.getElem?_eq_none (by omega)]
      · rw [if_neg h2, if_neg (by omega)]

/-- Writing a non-special, non-glyph character at an unprotected position
preserves the invariant. -/
theorem resInv_set_plain {name : List Char} {res : List (Option Char)} {pos : Nat}
    {newc : Char}
    (hprot : isProtected name pos = false)
    (hns : isSpecialChar newc = false) (hng : isGlyph newc = false)
    (hinv : ResInv name res) :
    ResInv name (res.set pos (some newc)) := by
  obtain ⟨h1, h2, h3, h4, h5⟩ := hinv
  refine ⟨by rw [List.length_set]; exact h1, ?_, ?_, ?_, ?_⟩
  · intro j hp
    rw [List.getElem?_set]
    by_cases he : pos = j
    · subst he
      rw [hprot] at hp
      cases hp
    · rw [if_neg he]
      exact h2 j hp
  · intro j c hc hspec
    rw [List.getElem?_set] at hc
    by_cases he : pos = j
    · subst he
      rw [if_pos rfl] at hc
      split at hc
      · injection hc with h6
        injection h6 with h7
        rw [← h7] at hspec
        rw [hns] at hspec
        cases hspec
      · cases hc
    · rw [if_neg he] at hc
      exact h3 j c hc hspec
  · intro j c hc hg
    rw [List.getElem?_set] at hc
    by_cases he : pos = j
    · subst he
      rw [if_pos rfl] at hc
      split at hc
      · injection hc with h6
      · cases hc
    · rw [if_neg he] at hc
      exact h4 j c hc hg
  · intro j hc
    rw [List.getElem?_set] at hc
    by_cases he : pos = j
    · subst he
      rw [if_pos rfl] at hc
      split at hc
      · injection hc with h6
      · cases hc
    · rw [if_neg he] at hc
      exact h5 j hc

/-- Writing a ligature (glyph at the span start, deletions over the span
tail) at an unprotected span preserves the invariant. -/
theorem resInv_set_ligature {name : List Char} {res : List (Option Char)} {pos len : Nat}
    {g : Char}
    (hg : isGlyph g = true)
    (hlen : 1 ≤ len)
    (hprot : ∀ j ∈ List.range' pos len, isProtected name j = false)
    (hinv : ResInv name res) :
    ResInv name ((List.range' (pos + 1) (len - 1)).foldl (fun acc k => acc.set k none)
      (res.set pos (some g))) := by
  obtain ⟨h1, h2, h3, h4, h5⟩ := hinv
  have hgs := glyph_not_special hg
  have hppos : isProtected name pos = false :=
    hprot pos (List.mem_range'_1.2 ⟨le_refl _, by omega⟩)
  have hptail : ∀ j, pos + 1 ≤ j → j < pos + 1 + (len - 1) →
      isProtected name j = false := by
    intro j hj1 hj2
    exact hprot j (List.mem_range'_1.2 ⟨by omega, by omega⟩)
  have hget : ∀ j, ((List.range' (pos + 1) (len - 1)).foldl
      (fun acc k => acc.set k none) (res.set pos (some g)))[j]? =
      if pos + 1 ≤ j ∧ j < pos + 1 + (len - 1) ∧ j < res.length then some none
      else (res.set pos (some g))[j]? := by
    intro j
    rw [getElem?_setNone_fold (res.set pos (some g)) (len - 1) (pos + 1) j,
      List.length_set]
  refine ⟨?_, ?_, ?_, ?_, ?_⟩
  · have : ∀ (L : List Nat) (acc : List (Option Char)),
        (L.foldl (fun acc k => acc.set k none) acc).length = acc.length := by
      intro L
      induction L with
      | nil => intro acc; rfl
      | cons a t ih => intro acc; rw [List.foldl_cons, ih, List.length_set]
    rw [this, List.length_set]
    exact h1
  · intro j hp
    rw [hget j]
    rw [if_neg (by
      intro hand
      rw [hptail j hand.1 hand.2.1] at hp
      cases hp)]
    rw [List.getElem?_set]
    by_cases he : pos = j
    · subst he
      rw [hppos] at hp
      cases hp
    · rw [if_neg he]
      exact h2 j hp
  · intro j c hc hspec
    rw [hget j] at hc
    split at hc
    · injection hc with h6
      cases h6
    · rw [List.getElem?_set] at hc
      by_cases he : pos = j
      · subst he
        rw [if_pos rfl] at hc
        split at hc
        · injection hc with h6
          injection h6 with h7
          rw [← h7] at hspec
          rw [hgs] at hspec
          cases hspec
        · cases hc
      · rw [if_neg he] at hc
        exact h3 j c hc hspec
  · intro j c hc hgl
    rw [hget j] at hc
    split at hc
    · injection hc with h6
      cases h6
    · rw [List.getElem?_set] at hc
      by_cases he : pos = j
      · subst he
        exact hppos
      · rw [if_neg he] at hc
        exact h4 j c hc hgl
  · intro j hc
    rw [hget j] at hc
    split at hc
    · rename_i hcond
      exact hptail j hcond.1 hcond.2.1
    · rw [List.getElem?_set] at hc
      by_cases he : pos = j
      · subst he
        rw [if_pos rfl] at hc
        split at hc
        · injection hc with h6
        · cases hc
      · rw [if_neg he] at hc
        exact h5 j hc

end FantasyNameGen

namespace FantasyNameGen

/-- The opportunity-application loop preserves the result invariant. -/
theorem resInv_apply_mods (name : List Char) (o : ModOracle) (max_mods : Nat)
    (hpick : ∀ (c : Char) (vs : List Char), vs ≠ [] → o.pickDiacritic c vs ∈ vs) :
    ∀ (opps : List ModOpp) (res : List (Option Char)) (made : Nat) (modified : List Nat),
    (∀ opp ∈ opps, OppValid name opp) → ResInv name res →
    ResInv name (apply_mods o max_mods opps res made modified)
  | [], res, made, modified => by
    intro _ hinv
    exact hinv
  | opp :: rest, res, made, modified => by
    intro hvalid hinv
    unfold apply_mods
    split
    · exact hinv
    · split
      · exact resInv_apply_mods name o max_mods hpick rest res made modified
          (fun p hp => hvalid p (List.mem_cons_of_mem _ hp)) hinv
      · have hv := hvalid opp (List.mem_cons_self _ _)
        split
        · rename_i hlig
          exact resInv_apply_mods name o max_mods hpick rest _ (made + 1) _
            (fun p hp => hvalid p (List.mem_cons_of_mem _ hp))
            (resInv_set_ligature (ligature_lookup_glyph opp.original)
              (hv.2.2 hlig) hv.1 hinv)
        · rename_i hlig
          rw [Bool.not_eq_true] at hlig
          obtain ⟨hlen1, hsome⟩ := hv.2.1 hlig
          obtain ⟨vs, hvs⟩ := Option.isSome_iff_exists.1 hsome
          obtain ⟨hne, hvar⟩ := diacritic_map_variants hvs
          have hvfacts := hvar _ (hpick (opp.original.headD ' ') vs hne)
          have hppos : isProtected name opp.pos = false :=
            hv.1 opp.pos (List.mem_range'_1.2 ⟨le_refl _, by omega⟩)
          refine resInv_apply_mods name o max_mods hpick rest _ (made + 1) _
            (fun p hp => hvalid p (List.mem_cons_of_mem _ hp)) ?_
          rw [hvs]
          simp only [Option.getD_some]
          exact resInv_set_plain hppos hvfacts.1 hvfacts.2 hinv

/-- The head of `reduceOption` comes from the first non-deleted entry. -/
theorem head?_reduceOption {α : Type} :
    ∀ (l : List (Option α)) (b : α), l.reduceOption.head? = some b →
    ∃ j : Nat, l[j]? = some (some b) ∧ ∀ k, k < j → l[k]? = some none
  | [], b => by
    intro h
    cases h
  | none :: t, b => by
    intro h
    rw [List.reduceOption_cons_of_none] at h
    obtain ⟨j, hj, hk⟩ := head?_reduceOption t b h
    refine ⟨j + 1, by rw [List.getElem?_cons_succ]; exact hj, ?_⟩
    intro k hk'
    cases k with
    | zero => exact List.getElem?_cons_zero
    | succ n => rw [List.getElem?_cons_succ]; exact hk n (by omega)
  | some a :: t, b => by
    intro h
    rw [List.reduceOption_cons_of_some, List.head?_cons] at h
    injection h with h1
    refine ⟨0, ?_, ?_⟩
    · rw [List.getElem?_cons_zero, h1]
    · intro k hk
      omega

/-- `Chain'` of `reduceOption` follows from a relation between any two
surviving entries separated only by deletions. -/
theorem chain'_reduceOption {α : Type} {R : α → α → Prop} :
    ∀ l : List (Option α),
    (∀ (i j : Nat) (a b : α), l[i]? = some (some a) → l[j]? = some (some b) →
      i < j → (∀ k, i < k → k < j → l[k]? = some none) → R a b) →
    List.Chain' R l.reduceOption
  | [] => by
    intro _
    exact List.chain'_nil
  | none :: t => by
    intro h
    rw [List.reduceOption_cons_of_none]
    refine chain'_reduceOption t ?_
    intro i j a b hi hj hij hbet
    refine h (i + 1) (j + 1) a b (by rw [List.getElem?_cons_succ]; exact hi)
      (by rw [List.getElem?_cons_succ]; exact hj) (by omega) ?_
    intro k hk1 hk2
    cases k with
    | zero => omega
    | succ n => rw [List.getElem?_cons_succ]; exact hbet n (by omega) (by omega)
  | some a :: t => by
    intro h
    rw [List.reduceOption_cons_of_some, List.chain'_cons']
    constructor
    · intro y hy
      have hy' : t.reduceOption.head? = some y := hy
      obtain ⟨j, hj, hk⟩ := head?_reduceOption t y hy'
      refine h 0 (j + 1) a y (List.getElem?_cons_zero) (by rw [List.getElem?_cons_succ]; exact hj)
        (by omega) ?_
      intro k hk1 hk2
      cases k with
      | zero => omega
      | succ n => rw [List.getElem?_cons_succ]; exact hk n (by omega)
    · refine chain'_reduceOption t ?_
      intro i j x y hi hj hij hbet
      refine h (i + 1) (j + 1) x y (by rw [List.getElem?_cons_succ]; exact hi)
        (by rw [List.getElem?_cons_succ]; exact hj) (by omega) ?_
      intro k hk1 hk2
      cases k with
      | zero => omega
      | succ n => rw [List.getElem?_cons_succ]; exact hbet n (by omega) (by omega)

end FantasyNameGen

namespace FantasyNameGen

/-- A glyph-free chain without adjacent specials is safe. -/
theorem chain_safe_of_noAdj {l : List Char} (hchain : List.Chain' RnoAdj l)
    (hg : ∀ c ∈ l, isGlyph c = false) : List.Chain' Rsafe l := by
  rw [List.chain'_iff_get] at hchain ⊢
  intro i hi
  refine ⟨hchain i hi, ?_, ?_⟩
  · rintro ⟨_, hglyph⟩
    rw [hg _ (List.get_mem _ _ _)] at hglyph
    cases hglyph
  · rintro ⟨hglyph, _⟩
    rw [hg _ (List.get_mem _ _ _)] at hglyph
    cases hglyph

/-- Any result list satisfying the invariant over a safe glyph-free input
collapses (via `reduceOption`) to a safe chain: a surviving special is an
original one, so its protected neighbourhood pins its surviving neighbour
to an original adjacent character. -/
theorem chain'_rsafe_of_inv {name : List Char} {res : List (Option Char)}
    (hchain : List.Chain' RnoAdj name)
    (hgf : ∀ c ∈ name, isGlyph c = false)
    (hinv : ResInv name res) :
    List.Chain' Rsafe res.reduceOption := by
  obtain ⟨hlen, hprot, hspec, hglyph, hdel⟩ := hinv
  refine chain'_reduceOption res ?_
  intro i j a b hi hj hij hbet
  have hjlt : j < name.length := by
    have := (List.getElem?_eq_some.1 hj).1
    omega
  have hadj : ∀ (hii : i + 1 < name.length), RnoAdj (name.get ⟨i, by omega⟩)
      (name.get ⟨i + 1, hii⟩) := by
    intro hii
    rw [List.chain'_iff_get] at hchain
    exact hchain i (by omega)
  by_cases hsa : isSpecialChar a = true
  · have hna : name[i]? = some a := hspec i a hi hsa
    have hilt : i < name.length := (List.getElem?_eq_some.1 hna).1
    have hgda : name.getD i ' ' = a := by
      rw [List.getD_eq_getElem?_getD, hna]
      rfl
    have hspi : isSpecialChar (name.getD i ' ') = true := by
      rw [hgda]
      exact hsa
    have hje : j = i + 1 := by
      by_contra hne
      have h1 : i + 1 < j := by omega
      have hup := hdel (i + 1) (hbet (i + 1) (by omega) h1)
      have hp : isProtected name (i + 1) = true :=
        isProtected_of_special hilt hspi (by omega) (by omega) (by omega)
      rw [hup] at hp
      cases hp
    subst hje
    have hp : isProtected name (i + 1) = true :=
      isProtected_of_special hilt hspi (by omega) (by omega) (by omega)
    have hr := hprot (i + 1) hp
    rw [hj] at hr
    have hb : b = name.getD (i + 1) ' ' := Option.some.inj (Option.some.inj hr)
    have hbmem : b ∈ name := by
      rw [hb, List.getD_eq_getElem?_getD, List.getElem?_eq_getElem hjlt,
        Option.getD_some]
      exact List.getElem_mem hjlt
    have hga : name.get ⟨i, hilt⟩ = a := by
      obtain ⟨hl, he⟩ := List.getElem?_eq_some.1 hna
      simpa using he
    have hgb : name.get ⟨i + 1, hjlt⟩ = name.getD (i + 1) ' ' := by
      rw [List.getD_eq_getElem?_getD, List.getElem?_eq_getElem hjlt]
      simp
    refine ⟨?_, ?_, ?_⟩
    · rintro ⟨ha', hb'⟩
      refine hadj hjlt ⟨?_, ?_⟩
      · rw [hga]
        exact ha'
      · rw [hgb, ← hb]
        exact hb'
    · rintro ⟨_, hbg⟩
      rw [hgf b hbmem] at hbg
      cases hbg
    · rintro ⟨hag, _⟩
      rw [special_not_glyph hsa] at hag
      cases hag
  · by_cases hsb : isSpecialChar b = true
    · have hnb : name[j]? = some b := hspec j b hj hsb
      have hgdb : name.getD j ' ' = b := by
        rw [List.getD_eq_getElem?_getD, hnb]
        rfl
      have hspj : isSpecialChar (name.getD j ' ') = true := by
        rw [hgdb]
        exact hsb
      have hie : j = i + 1 := by
        by_contra hne
        have h1 : i < j - 1 := by omega
        have hup := hdel (j - 1) (hbet (j - 1) (by omega) (by omega))
        have hp : isProtected name (j - 1) = true :=
          isProtected_of_special hjlt hspj (by omega) (by omega) (by omega)
        rw [hup] at hp
        cases hp
      subst hie
      have hp : isProtected name i = true :=
        isProtected_of_special hjlt hspj (by omega) (by omega) (by omega)
      have hr := hprot i hp
      rw [hi] at hr
      have ha : a = name.getD i ' ' := Option.some.inj (Option.some.inj hr)
      have hilt : i < name.length := by omega
      have hamem : a ∈ name := by
        rw [ha, List.getD_eq_getElem?_getD, List.getElem?_eq_getElem hilt,
          Option.getD_some]
        exact List.getElem_mem hilt
      refine ⟨?_, ?_, ?_⟩
      · rintro ⟨ha', _⟩
        exact hsa ha'
      · rintro ⟨ha', _⟩
        exact hsa ha'
      · rintro ⟨hag, _⟩
        rw [hgf a hamem] at hag
        cases hag
    · exact ⟨fun h => hsa h.1, fun h => hsa h.1, fun h => hsb h.2⟩

end FantasyNameGen

namespace FantasyNameGen

/-- The character-modification pass maps a glyph-free input without
adjacent specials to a safe output. -/
theorem apply_character_modifications_chain (cfg : FantasyNameConfig) (o : ModOracle)
    (hpick : ∀ (c : Char) (vs : List Char), vs ≠ [] → o.pickDiacritic c vs ∈ vs)
    (name : List Char) (hchain : List.Chain' RnoAdj name)
    (hg : ∀ c ∈ name, isGlyph c = false) :
    List.Chain' Rsafe (apply_character_modifications cfg o name) := by
  unfold apply_character_modifications
  split
  · exact chain_safe_of_noAdj hchain hg
  split
  · exact chain_safe_of_noAdj hchain hg
  split
  · exact chain_safe_of_noAdj hchain hg
  exact chain'_rsafe_of_inv hchain hg
    (resInv_apply_mods name o cfg.max_modifications hpick _ _ 0 []
      (sorted_opportunities_valid cfg name) (resInv_base name hg))

/-- A configuration that disables both post-processing passes through
their hard caps. -/
def noEffectsConfig : FantasyNameConfig :=
  { max_special_features := 0, max_modifications := 0 }

/-- C9: the round-trip claim is false for arbitrary inputs: with both
passes disabled by their caps, each pass returns its input unchanged, so
an input already containing two adjacent hyphens survives with the
adjacent specials intact. -/
theorem C9_counterexample :
    ¬ List.Chain' RnoAdj
      (apply_character_modifications noEffectsConfig ⟨true, fun _ vs => vs.headD 'a'⟩
        (add_special_features noEffectsConfig true ['a', '-', '-', 'b'])) := by
  have h1 : add_special_features noEffectsConfig true ['a', '-', '-', 'b'] =
      ['a', '-', '-', 'b'] := by
    unfold add_special_features
    rw [if_pos (show noEffectsConfig.special_features ≤ 0 ∨
      noEffectsConfig.max_special_features = 0 from Or.inr rfl)]
  have h2 : apply_character_modifications noEffectsConfig
      ⟨true, fun _ vs => vs.headD 'a'⟩ ['a', '-', '-', 'b'] = ['a', '-', '-', 'b'] := by
    unfold apply_character_modifications
    rw [if_pos (show noEffectsConfig.character_modifications ≤ 0 ∨
      noEffectsConfig.max_modifications = 0 from Or.inr rfl)]
  rw [h1, h2]
  intro h
  rw [List.chain'_iff_get] at h
  exact h 1 (by norm_num) ⟨by decide, by decide⟩

/-- C9 (amended): for an input of plain letters (no special characters, no
ligature glyphs) and any diacritic draw taken from the offered variant
list, the feature-insertion pass followed by the character-modification
pass never produces two adjacent special characters, nor a special
character adjacent to a ligature glyph. -/
theorem round_trip_no_bad_adjacency (cfg : FantasyNameConfig) (gate : Bool)
    (o : ModOracle)
    (hpick : ∀ (c : Char) (vs : List Char), vs ≠ [] → o.pickDiacritic c vs ∈ vs)
    (name : List Char)
    (hclean : ∀ c ∈ name, isSpecialChar c = false ∧ isGlyph c = false) :
    List.Chain' Rsafe
      (apply_character_modifications cfg o (add_special_features cfg gate name)) := by
  have hchain0 : List.Chain' RnoAdj name := by
    rw [List.chain'_iff_get]
    intro i hi
    rintro ⟨h1, _⟩
    rw [(hclean _ (List.get_mem _ _ _)).1] at h1
    cases h1
  have hg1 : ∀ c ∈ add_special_features cfg gate name, isGlyph c = false := by
    intro c hc
    rcases mem_add_special_features cfg gate name c hc with h | h
    · exact (hclean c h).2
    · exact special_not_glyph h
  exact apply_character_modifications_chain cfg o hpick _
    (add_special_features_chain cfg gate name hchain0) hg1

/-- The amended round-trip theorem at a concrete clean input, concrete
configuration and a concrete head-picking oracle. -/
theorem round_trip_no_bad_adjacency_witness :
    List.Chain' Rsafe
      (apply_character_modifications defaultFantasyNameConfig
        ⟨true, fun _ vs => vs.headD 'a'⟩
        (add_special_features defaultFantasyNameConfig true
          ['t', 'h', 'a', 'l', 'i', 'n', 'd', 'o', 'r'])) :=
  round_trip_no_bad_adjacency defaultFantasyNameConfig true
    ⟨true, fun _ vs => vs.headD 'a'⟩
    (fun c vs h => by
      cases vs with
      | nil => exact absurd rfl h
      | cons x t => exact List.mem_cons_self x t)
    ['t', 'h', 'a', 'l', 'i', 'n', 'd', 'o', 'r']
    (by decide)

end FantasyNameGen
